import Mathlib

/-
  A verification development for `pkg/integrations/manager.go`: the
  integrations supervisor of the grafana-agent repository.

  The Go code is shallowly embedded:
  * Go maps keyed by strings become association lists (`alookup`, key
    uniqueness is carried as an explicit invariant where a proof needs it);
  * pointer identity of an `*integrationProcess` becomes a numeric `pid`
    drawn from a monotone counter (`nextPid`), and handler identity in the
    handler cache a numeric handler id drawn from `nextHandler`;
  * the side effects `ApplyConfig` performs against the downstream instance
    manager and against processes (DeleteConfig / ApplyConfig / starting and
    stopping a process) become an ordered event trace;
  * `util.CompareYAML` (structural comparison via YAML round-trip) becomes
    decidable structural equality of the embedded configuration values;
  * the worker interface (`Config.NewIntegration`, `Integration.Run`,
    `Integration.ScrapeConfigs`, `Integration.MetricsHandler`) and the
    external validator / instance manager are environment parameters;
  * `context.Canceled` becomes the distinguished error string
    "context canceled"; a `context.Context` being done becomes a Boolean;
  * `time.Duration` becomes a `Nat` count of nanoseconds.
-/

namespace Integrations

/-- Association-list read, the embedding of a Go map read `m[k]`. -/
def alookup {β : Type} : List (String × β) → String → Option β
  | [], _ => none
  | kv :: rest, k => if kv.1 = k then some kv.2 else alookup rest k

/-- Association-list write, the embedding of a Go map write `m[k] = v`. -/
def mapInsert {β : Type} (k : String) (v : β) : List (String × β) → List (String × β)
  | [] => [(k, v)]
  | kv :: rest => if kv.1 = k then (k, v) :: rest else kv :: mapInsert k v rest

/-- Association-list delete, the embedding of Go `delete(m, k)`. -/
def mapErase {β : Type} (k : String) (l : List (String × β)) : List (String × β) :=
  l.filter (fun kv => kv.1 ≠ k)

/-- `time.Second` in nanoseconds (Go `time.Duration` is a nanosecond count). -/
def timeSecond : Nat := 1000000000

/-- The Go error value `context.Canceled`, embedded by its message. -/
def ctxCanceled : String := "context canceled"

/-- One relabel rule (`relabel.Config`); assembled but never executed by the
manager, so its fields are carried as plain data. -/
structure RelabelConfig where
  sourceLabels : List String
  action : String
  separator : String
  regex : String
  replacement : String
  targetLabel : String
deriving DecidableEq, Repr

/-- The common settings of an integration config (`config.CommonConfig()` of
the integration `Config` interface, defined in the repository's
`pkg/integrations/config.go`, which is not part of the extracted source; its
fields are exactly the ones `manager.go` reads, per the spec's WorkerConfig:
enable flag, scrape override, scrape interval/timeout, relabel rules, metric
relabel rules, WAL-truncation-frequency override). -/
structure CommonConfig where
  enabled : Bool
  scrapeIntegration : Option Bool
  scrapeInterval : Nat
  scrapeTimeout : Nat
  relabelConfigs : List RelabelConfig
  metricRelabelConfigs : List RelabelConfig
  walTruncateFrequency : Nat
deriving DecidableEq, Repr

/-- One integration's declarative config (the Go `Config` interface value).
`name` is `Config.Name()`, `common` is `Config.CommonConfig()`, and `rest`
stands for the remaining integration-specific settings, so that two configs
with the same name can still differ structurally (as YAML comparison would
see). -/
structure Config where
  name : String
  common : CommonConfig
  rest : Nat
deriving DecidableEq, Repr

/-- One declared scrape target of an integration
(`config.ScrapeConfig` item returned by `Integration.ScrapeConfigs()`:
a job name and a metrics path). -/
structure ScrapeTarget where
  jobName : String
  metricsPath : String
deriving DecidableEq, Repr

/-- A live integration handle (the Go `Integration` interface value): the
targets it declares and whether `MetricsHandler()` succeeds. Its `Run`
behaviour is modelled separately as a list of run outcomes. -/
structure Integration where
  scrapeConfigs : List ScrapeTarget
  metricsHandlerOk : Bool
deriving DecidableEq, Repr

/-- `ManagerConfig` of `manager.go` (remote-write configs and the TLS client
config are opaque data to the manager, carried as numbers). -/
structure ManagerConfig where
  scrapeIntegrations : Bool
  replaceInstanceLabel : Bool
  useHostnameLabel : Bool
  integrations : List Config
  labels : List (String × String)
  prometheusRemoteWrite : List Nat
  integrationRestartBackoff : Nat
  listenPort : Nat
  listenHost : String
  tlsConfig : Nat
  serverUsingTLS : Bool
deriving DecidableEq, Repr

/-- `DefaultManagerConfig` of `manager.go`. -/
def DefaultManagerConfig : ManagerConfig :=
  { scrapeIntegrations := true
    replaceInstanceLabel := true
    useHostnameLabel := true
    integrations := []
    labels := []
    prometheusRemoteWrite := []
    integrationRestartBackoff := 5 * timeSecond
    listenPort := 0
    listenHost := ""
    tlsConfig := 0
    serverUsingTLS := false }

/-- `ManagerConfig.DefaultRelabelConfigs`: the synthetic instance-label
replacement rule, emitted only when `ReplaceInstanceLabel` is set. -/
def DefaultRelabelConfigs (c : ManagerConfig) (hostname : String) : List RelabelConfig :=
  if c.replaceInstanceLabel then
    [{ sourceLabels := ["__address__"]
       action := "replace"
       separator := ";"
       regex := "(.*)"
       replacement := hostname ++ ":" ++ toString c.listenPort
       targetLabel := "instance" }]
  else []

/-- `integrationKey`: the identity key of an integration, used as its
instance-config name and its key in the process registry. -/
def integrationKey (name : String) : String := "integration/" ++ name

/-- A static service-discovery group (`discovery.StaticConfig` entry):
a list of targets (each a label set) plus shared labels. -/
structure StaticConfig where
  targets : List (List (String × String))
  labels : List (String × String)
deriving DecidableEq, Repr

/-- One generated Prometheus scrape config (the fields `manager.go` sets
on `config.ScrapeConfig`). `httpTLSConfig` is `some` of the manager's TLS
client config exactly when the agent's server uses TLS. -/
structure ScrapeConfig where
  jobName : String
  metricsPath : String
  scheme : String
  honorLabels : Bool
  honorTimestamps : Bool
  scrapeInterval : Nat
  scrapeTimeout : Nat
  serviceDiscoveryConfigs : List StaticConfig
  relabelConfigs : List RelabelConfig
  metricRelabelConfigs : List RelabelConfig
  httpTLSConfig : Option Nat
deriving DecidableEq, Repr

/-- A generated instance config (`instance.Config`), as far as `manager.go`
populates it on top of `instance.DefaultConfig`. -/
structure InstanceConfig where
  name : String
  scrapeConfigs : List ScrapeConfig
  remoteWrite : List Nat
  walTruncateFrequency : Nat
deriving DecidableEq, Repr

/-- `instance.DefaultConfig` as seen by `manager.go` (external to the file;
its WAL truncation frequency default is the one value the manager
conditionally overrides — 60 minutes in the agent). -/
def instanceDefaultConfig : InstanceConfig :=
  { name := ""
    scrapeConfigs := []
    remoteWrite := []
    walTruncateFrequency := 60 * 60 * timeSecond }

/-- Go `path.Join` joins the elements with slashes, skipping leading empty
elements, before cleaning; this is the pre-`Clean` buffer contents. -/
def joinSlash : List String → String
  | [] => ""
  | [s] => s
  | s :: rest => s ++ "/" ++ joinSlash rest

/-- One step of Go `path.Clean`'s segment processing: drop empty and `.`
segments, let `..` erase the previous real segment (at the root a leading
`..` is dropped; in a relative path it is kept). -/
def cleanSegsStep (rooted : Bool) (acc : List String) (seg : String) : List String :=
  if seg = "" ∨ seg = "." then acc
  else if seg = ".." then
    if acc ≠ [] ∧ acc.getLast? ≠ some ".." then acc.dropLast
    else if rooted then acc else acc ++ [".."]
  else acc ++ [seg]

/-- Split a character list at every `'/'` (the segment decomposition
`path.Clean` walks; `"a/b"` gives `[a, b]`, a leading or trailing slash an
empty segment). -/
def splitSlash : List Char → List (List Char)
  | [] => [[]]
  | c :: rest =>
    match splitSlash rest with
    | [] => if c = '/' then [[], []] else [[c]]
    | seg :: segs => if c = '/' then [] :: seg :: segs else (c :: seg) :: segs

/-- Go `path.Clean`, as lexical segment processing. -/
def goPathClean (s : String) : String :=
  if s = "" then "." else
  let rooted := match s.toList with | '/' :: _ => true | _ => false
  let segs := ((splitSlash s.toList).map (fun l => String.mk l)).foldl (cleanSegsStep rooted) []
  if rooted then "/" ++ joinSlash segs
  else if segs = [] then "." else joinSlash segs

/-- Go `path.Join(elem...)`: empty when every element is empty, otherwise
the slash-join of the elements from the first non-empty one, cleaned. -/
def goPathJoin (elems : List String) : String :=
  if elems.all (fun e => e = "") then ""
  else goPathClean (joinSlash (elems.dropWhile (fun e => e = "")))

/-- `Manager.scrapeServiceDiscovery`: a single static target at the agent's
own listen address (loopback when the listen host is unset), labelled with
the optional hostname label and the global extra labels. -/
def scrapeServiceDiscovery (hostname : String) (cfg : ManagerConfig) : List StaticConfig :=
  let newHost := if cfg.listenHost = "" then "127.0.0.1" else cfg.listenHost
  let localAddr := newHost ++ ":" ++ toString cfg.listenPort
  let labels :=
    (if cfg.useHostnameLabel then [("agent_hostname", hostname)] else []) ++ cfg.labels
  [{ targets := [[("__address__", localAddr)]], labels := labels }]

/-- `Manager.instanceConfigForIntegration`: project one integration's
declared scrape targets into a generated instance config. -/
def instanceConfigForIntegration (hostname : String) (icfg : Config) (i : Integration)
    (cfg : ManagerConfig) : InstanceConfig :=
  let common := icfg.common
  let relabelConfigs := DefaultRelabelConfigs cfg hostname ++ common.relabelConfigs
  let schema := if cfg.serverUsingTLS then "https" else "http"
  let httpTLS : Option Nat := if cfg.serverUsingTLS then some cfg.tlsConfig else none
  let scrapeConfigs := i.scrapeConfigs.map (fun isc => show ScrapeConfig from
    { jobName := "integrations/" ++ isc.jobName
      metricsPath := goPathJoin ["/integrations", icfg.name, isc.metricsPath]
      scheme := schema
      honorLabels := false
      honorTimestamps := true
      scrapeInterval := common.scrapeInterval
      scrapeTimeout := common.scrapeTimeout
      serviceDiscoveryConfigs := scrapeServiceDiscovery hostname cfg
      relabelConfigs := relabelConfigs
      metricRelabelConfigs := common.metricRelabelConfigs
      httpTLSConfig := httpTLS })
  { instanceDefaultConfig with
      name := integrationKey icfg.name
      scrapeConfigs := scrapeConfigs
      remoteWrite := cfg.prometheusRemoteWrite
      walTruncateFrequency :=
        if common.walTruncateFrequency > 0 then common.walTruncateFrequency
        else instanceDefaultConfig.walTruncateFrequency }

/-- A running integration (`integrationProcess`). `pid` embeds the pointer
identity of the Go struct; `cfg` is the config snapshot it was built from,
`i` the live integration handle. -/
structure IntegrationProcess where
  pid : Nat
  cfg : Config
  i : Integration
deriving DecidableEq, Repr

/-- The mutable state of a `Manager`: the stored config, the process
registry, whether the root context is done (`Stop` was called), and the
counter supplying fresh process identities. -/
structure ManagerState where
  cfg : ManagerConfig
  integrations : List (String × IntegrationProcess)
  ctxDone : Bool
  nextPid : Nat
deriving DecidableEq, Repr

/-- `Manager.Stop` as far as `ApplyConfig` can observe it: the root context
is cancelled (the wait-group join adds nothing to this state). -/
def stopManager (m : ManagerState) : ManagerState := { m with ctxDone := true }

/-- The externally observable side effects of one `ApplyConfig` call, in
program order: instance-manager `DeleteConfig`/`ApplyConfig` calls and
process stops (`p.stop()`) and starts (`go p.Run()`). -/
inductive Event
  | deleteConfig (key : String)
  | imApplyConfig (c : InstanceConfig)
  | stopProcess (pid : Nat)
  | startProcess (pid : Nat)
deriving DecidableEq, Repr

/-- The external collaborators of the manager: the integration factory
(`Config.NewIntegration`, `none` = construction error), the config validator,
the instance manager's `ApplyConfig` (`false` = error), and the hostname. -/
structure Env where
  newIntegration : Config → Option Integration
  validator : InstanceConfig → Bool
  imApply : InstanceConfig → Bool
  hostname : String

/-- The accumulator threaded through `ApplyConfig`'s three passes: the
registry being rewritten, the event trace so far, the `failed` flag, and the
fresh-pid counter. -/
structure ApplyState where
  integrations : List (String × IntegrationProcess)
  events : List Event
  failed : Bool
  nextPid : Nat
deriving DecidableEq, Repr

/-- The construction half of pass 1 of `ApplyConfig` (`manager.go:226-252`),
entered with `key` absent from the registry: build the integration; on error
set `failed`, delete the key's stale instance config and skip; on success
start and register a fresh process. -/
def pass1Create (env : Env) (s : ApplyState) (ic : Config) (key : String) : ApplyState :=
  match env.newIntegration ic with
  | none =>
    { s with failed := true, events := s.events ++ [.deleteConfig key] }
  | some i =>
    let p : IntegrationProcess := { pid := s.nextPid, cfg := ic, i := i }
    { s with
        nextPid := s.nextPid + 1
        events := s.events ++ [.startProcess p.pid]
        integrations := s.integrations ++ [(key, p)] }

/-- One entry of pass 1 of `ApplyConfig` (`manager.go:210-253`): an existing
process with a structurally equal config is left untouched; otherwise an
existing process is stopped and removed first, and a replacement is built. -/
def pass1Step (env : Env) (s : ApplyState) (ic : Config) : ApplyState :=
  let key := integrationKey ic.name
  match alookup s.integrations key with
  | some p =>
    if p.cfg = ic then s
    else
      pass1Create env
        { s with
            events := s.events ++ [.stopProcess p.pid]
            integrations := mapErase key s.integrations }
        ic key
  | none => pass1Create env s ic key

/-- Whether some integration entry of `cfg` has identity key `k`
(the `foundConfig` scan of `manager.go:258-264`). -/
def keyInConfig (cfg : ManagerConfig) (k : String) : Bool :=
  cfg.integrations.any (fun ic => integrationKey ic.name = k)

/-- One entry of the sweep pass of `ApplyConfig` (`manager.go:257-272`):
a registered key with no entry in the new config has its instance config
deleted, its process stopped, and is removed from the registry. -/
def pass2Step (cfg : ManagerConfig) (acc : ApplyState) (kv : String × IntegrationProcess) :
    ApplyState :=
  if keyInConfig cfg kv.1 then acc
  else
    { acc with
        events := acc.events ++ [.deleteConfig kv.1, .stopProcess kv.2.pid]
        integrations := mapErase kv.1 acc.integrations }

/-- Whether a registered process should be scraped
(`manager.go:278-281`): the per-integration override when present, else the
global `ScrapeIntegrations` flag. -/
def shouldCollect (cfg : ManagerConfig) (p : IntegrationProcess) : Bool :=
  match p.cfg.common.scrapeIntegration with
  | some b => b
  | none => cfg.scrapeIntegrations

/-- One entry of the re-derivation pass of `ApplyConfig`
(`manager.go:277-302`): for a scraped integration, validate and push its
generated instance config (failures set `failed` and are otherwise ignored);
for a non-scraped one, delete any previously pushed config. -/
def pass3Step (env : Env) (cfg : ManagerConfig) (acc : ApplyState)
    (kv : String × IntegrationProcess) : ApplyState :=
  match shouldCollect cfg kv.2 with
  | true =>
    let icfg := instanceConfigForIntegration env.hostname kv.2.cfg kv.2.i cfg
    if env.validator icfg then
      let acc := { acc with events := acc.events ++ [.imApplyConfig icfg] }
      if env.imApply icfg then acc else { acc with failed := true }
    else { acc with failed := true }
  | false =>
    { acc with events := acc.events ++ [.deleteConfig kv.1] }

/-- Whether processing entry `ic` of the new config against registry `reg`
reaches the construction call (`ic.NewIntegration`): there is no existing
process for its key with a structurally equal config. -/
def needsConstruction (reg : List (String × IntegrationProcess)) (ic : Config) : Bool :=
  match alookup reg (integrationKey ic.name) with
  | some p => decide (p.cfg ≠ ic)
  | none => true

/-- Whether entry `ic` makes pass 1 mark the apply cycle failed: its
construction is reached and errors out. -/
def pass1Fails (env : Env) (reg : List (String × IntegrationProcess)) (ic : Config) : Bool :=
  needsConstruction reg ic && (env.newIntegration ic).isNone

/-- Whether registry entry `kv` makes the re-derivation pass mark the apply
cycle failed: it should be scraped but its generated config fails validation
or is rejected by the instance manager. -/
def pass3Fails (env : Env) (cfg : ManagerConfig) (kv : String × IntegrationProcess) : Bool :=
  shouldCollect cfg kv.2 &&
    !(env.validator (instanceConfigForIntegration env.hostname kv.2.cfg kv.2.i cfg) &&
      env.imApply (instanceConfigForIntegration env.hostname kv.2.cfg kv.2.i cfg))

/-- The start/stop/replace loop of `ApplyConfig` (`manager.go:210-253`),
folded over the new config's integration entries. -/
def applyPass1 (env : Env) (m : ManagerState) (cfg : ManagerConfig) : ApplyState :=
  cfg.integrations.foldl (pass1Step env)
    { integrations := m.integrations, events := [], failed := false, nextPid := m.nextPid }

/-- The sweep loop of `ApplyConfig` (`manager.go:257-272`), folded over the
registry left by pass 1. -/
def applyPass2 (cfg : ManagerConfig) (s1 : ApplyState) : ApplyState :=
  s1.integrations.foldl (pass2Step cfg) s1

/-- The re-derivation loop of `ApplyConfig` (`manager.go:277-302`), folded
over the registry left by the sweep. -/
def applyPass3 (env : Env) (cfg : ManagerConfig) (s2 : ApplyState) : ApplyState :=
  s2.integrations.foldl (pass3Step env cfg) s2

/-- `Manager.ApplyConfig` (`manager.go:188-310`): the structural-equality
no-op short-circuit, then the already-stopped guard, then the three passes,
then the commit of the new config and the aggregate error. Returns the new
manager state, the event trace of the call, and the call's result. -/
def applyConfig (env : Env) (m : ManagerState) (cfg : ManagerConfig) :
    ManagerState × List Event × Except String Unit :=
  if m.cfg = cfg then (m, [], .ok ())
  else if m.ctxDone then (m, [], .error "Manager already stopped")
  else
    let s3 := applyPass3 env cfg (applyPass2 cfg (applyPass1 env m cfg))
    ({ cfg := cfg, integrations := s3.integrations, ctxDone := m.ctxDone,
       nextPid := s3.nextPid },
     s3.events,
     if s3.failed then .error "not all integrations were correctly updated" else .ok ())

/-- What one call of the integration's `Run` did: returned (with `none` for a
nil error) or panicked. The run loop consumes one outcome per invocation. -/
inductive RunResult
  | ret (err : Option String)
  | panicked (msg : String)
deriving DecidableEq, Repr

/-- The observable steps of one run loop (`integrationProcess.Run` plus
`Manager.instanceBackoff`): an invocation of the integration's `Run`, the
abnormal-exit counter increment, the backoff log line (carrying the
integration's name and the error), the backoff sleep, the "stopped
integration" log line, and the recovered-panic log line. -/
inductive LoopEvent
  | invokeRun
  | incCounter (name : String)
  | backoffLog (name : String) (e : String)
  | sleep (d : Nat)
  | stoppedLog
  | panicLog (msg : String)
deriving DecidableEq, Repr

/-- `Manager.instanceBackoff` (`manager.go:347-354`): increment the
per-integration abnormal-exit counter, log, then sleep for the configured
restart backoff (read from the current manager config). -/
def instanceBackoffEvents (mcfg : ManagerConfig) (cfg : Config) (e : String) :
    List LoopEvent :=
  [.incCounter cfg.name, .backoffLog cfg.name e, .sleep mcfg.integrationRestartBackoff]

/-- `integrationProcess.Run` (`manager.go:325-345`): invoke the integration's
`Run`; a non-nil, non-`context.Canceled` error goes through the backoff
callback and the loop re-invokes `Run`; a nil or canceled return logs the
stop and terminates; a panic is recovered by the deferred handler, logged,
and terminates the loop (so no panic escapes the goroutine). The manager
config is the one current for the lifetime considered. -/
def processRun (mcfg : ManagerConfig) (cfg : Config) : List RunResult → List LoopEvent
  | [] => []
  | .panicked msg :: _ => [.invokeRun, .panicLog msg]
  | .ret (some e) :: rest =>
    if e = ctxCanceled then [.invokeRun, .stoppedLog]
    else .invokeRun :: instanceBackoffEvents mcfg cfg e ++ processRun mcfg cfg rest
  | .ret none :: _ => [.invokeRun, .stoppedLog]

/-- A handler-cache entry of `Manager.WireAPI`: the cached handler (by
identity) and the process reference it was built for. -/
structure HandlerCacheEntry where
  handler : Nat
  pid : Nat
deriving DecidableEq, Repr

/-- The state owned by `WireAPI`'s closure: the cache and the counter
supplying fresh handler identities (`MetricsHandler()` builds a new handler
each time it is called). -/
structure HandlerState where
  cache : List (String × HandlerCacheEntry)
  nextHandler : Nat
deriving DecidableEq, Repr

/-- What `loadHandler` resolves a request to: `http.NotFoundHandler()`, the
`internalServiceError` handler, or a (cached or fresh) integration handler. -/
inductive HandlerResult
  | notFound
  | internalServiceError
  | handler (h : Nat)
deriving DecidableEq, Repr

/-- The cache-miss path of `loadHandler` (`manager.go:458-468`): ask the
integration for a fresh handler; on failure answer the internal-error
handler and leave the cache alone; on success cache the handler keyed
together with the live process reference and answer it. -/
def loadHandlerNew (p : IntegrationProcess) (st : HandlerState) (key : String) :
    HandlerResult × HandlerState :=
  if p.i.metricsHandlerOk then
    (.handler st.nextHandler,
     { cache := mapInsert key { handler := st.nextHandler, pid := p.pid } st.cache
       nextHandler := st.nextHandler + 1 })
  else (.internalServiceError, st)

/-- `loadHandler` of `Manager.WireAPI` (`manager.go:441-469`): resolve the
key against the registry (evicting a stale cache entry and answering
not-found when the integration is gone); reuse the cached handler when its
stored process reference is the live process; otherwise build and cache a
fresh handler. -/
def loadHandler (integrations : List (String × IntegrationProcess)) (st : HandlerState)
    (key : String) : HandlerResult × HandlerState :=
  match alookup integrations key with
  | none => (.notFound, { st with cache := mapErase key st.cache })
  | some p =>
    match alookup st.cache key with
    | some entry =>
      if entry.pid = p.pid then (.handler entry.handler, st)
      else loadHandlerNew p st key
    | none => loadHandlerNew p st key

/-! Concrete fixtures, used to evaluate the theorems below on explicit
inputs (closed witnesses and counterexamples). -/

/-- A plain common config: enabled, no overrides. -/
def fxCommon : CommonConfig :=
  { enabled := true, scrapeIntegration := none, scrapeInterval := 0, scrapeTimeout := 0,
    relabelConfigs := [], metricRelabelConfigs := [], walTruncateFrequency := 0 }

/-- Integration config named `A`. -/
def fxA : Config := { name := "A", common := fxCommon, rest := 0 }

/-- A structurally different config for the same integration `A`. -/
def fxA2 : Config := { name := "A", common := fxCommon, rest := 1 }

/-- Integration config named `A`, disabled. -/
def fxAoff : Config := { name := "A", common := { fxCommon with enabled := false }, rest := 0 }

/-- Integration config named `B`. -/
def fxB : Config := { name := "B", common := fxCommon, rest := 0 }

/-- A live integration declaring one scrape target with job name `B`. -/
def fxIntegration : Integration :=
  { scrapeConfigs := [{ jobName := "B", metricsPath := "metrics" }], metricsHandlerOk := true }

/-- An environment where every external call succeeds. -/
def fxEnvOk : Env :=
  { newIntegration := fun _ => some fxIntegration
    validator := fun _ => true
    imApply := fun _ => true
    hostname := "h" }

/-- An environment where constructing the integration named `B` fails. -/
def fxEnvFailB : Env :=
  { fxEnvOk with
      newIntegration := fun c => if c.name = "B" then none else some fxIntegration }

/-- A freshly constructed manager state: default config, empty registry. -/
def fxM0 : ManagerState :=
  { cfg := DefaultManagerConfig, integrations := [], ctxDone := false, nextPid := 0 }

/-- Manager config whose integrations list is exactly `[fxA]`. -/
def fxCfgA : ManagerConfig := { DefaultManagerConfig with integrations := [fxA] }

/-- Manager config whose integrations list is `[fxAoff]` (a present but
disabled integration). -/
def fxCfgAoff : ManagerConfig := { DefaultManagerConfig with integrations := [fxAoff] }

/-- Manager config whose integrations list is `[fxA2, fxB]`. -/
def fxCfgA2B : ManagerConfig := { DefaultManagerConfig with integrations := [fxA2, fxB] }

/-- Manager config whose integrations list is `[fxA, fxB]`. -/
def fxCfgAB : ManagerConfig := { DefaultManagerConfig with integrations := [fxA, fxB] }

/-- The manager state after applying `fxCfgA` from scratch. -/
def fxM1 : ManagerState := (applyConfig fxEnvOk fxM0 fxCfgA).1

/-- The manager state after applying `fxCfgAB` from scratch: processes for
`A` (pid 0) and `B` (pid 1). -/
def fxM2 : ManagerState := (applyConfig fxEnvOk fxM0 fxCfgAB).1

/-- A live process for `fxA` with process identity 0. -/
def fxP0 : IntegrationProcess := { pid := 0, cfg := fxA, i := fxIntegration }

/-- A registry holding exactly `fxP0` under its key. -/
def fxReg : List (String × IntegrationProcess) := [("integration/A", fxP0)]

/-- A handler-cache state holding a stale entry for `integration/A`:
handler 3 built for a process identity (5) that is no longer the live one. -/
def fxHStale : HandlerState :=
  { cache := [("integration/A", { handler := 3, pid := 5 })], nextHandler := 4 }

/-! ## Association-list facts -/

theorem alookup_mapInsert_self {β : Type} (k : String) (v : β) (l : List (String × β)) :
    alookup (mapInsert k v l) k = some v := by
  induction l with
  | nil => simp [mapInsert, alookup]
  | cons kv rest ih =>
    by_cases hk : kv.1 = k
    · simp [mapInsert, hk, alookup]
    · simp [mapInsert, hk, alookup, ih]

theorem alookup_mapInsert_ne {β : Type} (k k' : String) (v : β) (l : List (String × β))
    (h : k ≠ k') : alookup (mapInsert k v l) k' = alookup l k' := by
  induction l with
  | nil => simp [mapInsert, alookup, h]
  | cons kv rest ih =>
    by_cases hk : kv.1 = k
    · subst hk; simp [mapInsert, alookup, h]
    · simp [mapInsert, hk, alookup, ih]

theorem alookup_mapErase_self {β : Type} (k : String) (l : List (String × β)) :
    alookup (mapErase k l) k = none := by
  induction l with
  | nil => simp [mapErase, alookup]
  | cons kv rest ih =>
    by_cases hk : kv.1 = k
    · simpa [mapErase, List.filter_cons, hk] using ih
    · simpa [mapErase, List.filter_cons, alookup, hk] using ih

theorem alookup_mapErase_ne {β : Type} (k k' : String) (l : List (String × β))
    (h : k ≠ k') : alookup (mapErase k l) k' = alookup l k' := by
  induction l with
  | nil => simp [mapErase, alookup]
  | cons kv rest ih =>
    by_cases hk : kv.1 = k
    · subst hk
      simpa [mapErase, List.filter_cons, alookup, h] using ih
    · by_cases hk' : kv.1 = k'
      · simp [mapErase, List.filter_cons, alookup, hk, hk', Ne.symm h]
      · simpa [mapErase, List.filter_cons, alookup, hk, hk'] using ih

theorem alookup_some_mem {β : Type} {l : List (String × β)} {k : String} {v : β}
    (h : alookup l k = some v) : (k, v) ∈ l := by
  induction l with
  | nil => simp [alookup] at h
  | cons kv rest ih =>
    by_cases hk : kv.1 = k
    · simp only [alookup, if_pos hk, Option.some_inj] at h
      subst hk; subst h; exact List.mem_cons_self _ _
    · simp only [alookup, if_neg hk] at h
      exact List.mem_cons_of_mem _ (ih h)

theorem alookup_append {β : Type} (l₁ l₂ : List (String × β)) (k : String) :
    alookup (l₁ ++ l₂) k = ((alookup l₁ k).rec (alookup l₂ k) fun v => some v) := by
  induction l₁ with
  | nil => simp [alookup]
  | cons kv rest ih =>
    by_cases hk : kv.1 = k
    · simp [alookup, hk]
    · simp [alookup, hk, ih]

theorem alookup_isSome_iff_mem_keys {β : Type} (l : List (String × β)) (k : String) :
    (alookup l k).isSome = true ↔ k ∈ l.map Prod.fst := by
  induction l with
  | nil => simp [alookup]
  | cons kv rest ih =>
    by_cases hk : kv.1 = k
    · simp [alookup, hk]
    · simp [alookup, hk, ih, Ne.symm hk]

theorem alookup_append_single_ne {β : Type} (l : List (String × β)) (key k : String) (v : β)
    (h : key ≠ k) : alookup (l ++ [(key, v)]) k = alookup l k := by
  induction l with
  | nil => simp [alookup, h]
  | cons kv rest ih => by_cases hk : kv.1 = k <;> simp [alookup, hk, ih]

theorem alookup_append_single_self {β : Type} (l : List (String × β)) (key : String) (v : β)
    (h : alookup l key = none) : alookup (l ++ [(key, v)]) key = some v := by
  induction l with
  | nil => simp [alookup]
  | cons kv rest ih =>
    by_cases hk : kv.1 = key
    · simp [alookup, hk] at h
    · simp only [alookup, List.cons_append, if_neg hk] at h ⊢
      exact ih h

theorem mapErase_of_lookup_none {β : Type} (k : String) (l : List (String × β))
    (h : alookup l k = none) : mapErase k l = l := by
  induction l with
  | nil => simp [mapErase]
  | cons kv rest ih =>
    by_cases hk : kv.1 = k
    · simp [alookup, hk] at h
    · simp only [alookup, if_neg hk] at h
      have hd : (decide (kv.1 ≠ k)) = true := by simp [hk]
      simp only [mapErase] at ih ⊢
      rw [List.filter_cons, if_pos hd, ih h]

theorem mapErase_sub {β : Type} (k : String) (l : List (String × β)) (kv : String × β)
    (h : kv ∈ mapErase k l) : kv ∈ l :=
  List.mem_of_mem_filter h

theorem mapErase_keys_nodup {β : Type} (k : String) (l : List (String × β))
    (h : (l.map Prod.fst).Nodup) : ((mapErase k l).map Prod.fst).Nodup := by
  have hsub : List.Sublist ((mapErase k l).map Prod.fst) (l.map Prod.fst) :=
    List.Sublist.map Prod.fst (List.filter_sublist l)
  exact h.sublist hsub

theorem keys_nodup_append_fresh {β : Type} (l : List (String × β)) (key : String) (v : β)
    (h : (l.map Prod.fst).Nodup) (hfresh : alookup l key = none) :
    ((l ++ [(key, v)]).map Prod.fst).Nodup := by
  rw [List.map_append]
  refine List.Nodup.append h (List.nodup_singleton _) ?_
  intro a ha hb
  simp only [List.map_cons, List.map_nil, List.mem_singleton] at hb
  rw [hb] at ha
  have hsome := (alookup_isSome_iff_mem_keys l key).mpr ha
  rw [hfresh] at hsome
  simp at hsome

/-! ## Pass 1: per-entry behaviour -/

/-- The three outcomes of one pass-1 entry: process untouched (existing
structurally equal config), process (re)constructed and started, or
construction failure. -/
theorem pass1Step_spec (env : Env) (s : ApplyState) (ic : Config) :
    (pass1Step env s ic = s
      ∧ ∃ p, alookup s.integrations (integrationKey ic.name) = some p ∧ p.cfg = ic)
    ∨ (needsConstruction s.integrations ic = true
       ∧ ∃ i, env.newIntegration ic = some i
       ∧ pass1Step env s ic =
          { integrations :=
              mapErase (integrationKey ic.name) s.integrations
                ++ [(integrationKey ic.name, { pid := s.nextPid, cfg := ic, i := i })]
            events := s.events
              ++ (match alookup s.integrations (integrationKey ic.name) with
                  | some p => [Event.stopProcess p.pid]
                  | none => [])
              ++ [Event.startProcess s.nextPid]
            failed := s.failed
            nextPid := s.nextPid + 1 })
    ∨ (needsConstruction s.integrations ic = true
       ∧ env.newIntegration ic = none
       ∧ pass1Step env s ic =
          { integrations := mapErase (integrationKey ic.name) s.integrations
            events := s.events
              ++ (match alookup s.integrations (integrationKey ic.name) with
                  | some p => [Event.stopProcess p.pid]
                  | none => [])
              ++ [Event.deleteConfig (integrationKey ic.name)]
            failed := true
            nextPid := s.nextPid }) := by
  cases hp : alookup s.integrations (integrationKey ic.name) with
  | some p =>
    by_cases hcfg : p.cfg = ic
    · exact Or.inl ⟨by simp [pass1Step, hp, hcfg], p, rfl, hcfg⟩
    · cases hni : env.newIntegration ic with
      | some i =>
        refine Or.inr (Or.inl ⟨by simp [needsConstruction, hp, hcfg], i, rfl, ?_⟩)
        simp [pass1Step, hp, hcfg, pass1Create, hni]
      | none =>
        refine Or.inr (Or.inr ⟨by simp [needsConstruction, hp, hcfg], rfl, ?_⟩)
        simp [pass1Step, hp, hcfg, pass1Create, hni]
  | none =>
    cases hni : env.newIntegration ic with
    | some i =>
      refine Or.inr (Or.inl ⟨by simp [needsConstruction, hp], i, rfl, ?_⟩)
      simp [pass1Step, hp, pass1Create, hni, mapErase_of_lookup_none _ _ hp]
    | none =>
      refine Or.inr (Or.inr ⟨by simp [needsConstruction, hp], rfl, ?_⟩)
      simp [pass1Step, hp, pass1Create, hni, mapErase_of_lookup_none _ _ hp]

/-- Pass-1 entries do not touch registry slots of other keys. -/
theorem pass1Step_lookup_ne (env : Env) (s : ApplyState) (ic : Config) (k : String)
    (hk : integrationKey ic.name ≠ k) :
    alookup (pass1Step env s ic).integrations k = alookup s.integrations k := by
  rcases pass1Step_spec env s ic with ⟨heq, -⟩ | ⟨-, i, -, heq⟩ | ⟨-, -, heq⟩ <;> rw [heq]
  · show alookup (mapErase (integrationKey ic.name) s.integrations
        ++ [(integrationKey ic.name, { pid := s.nextPid, cfg := ic, i := i })]) k
      = alookup s.integrations k
    rw [alookup_append_single_ne _ _ _ _ hk]
    exact alookup_mapErase_ne _ _ _ hk
  · show alookup (mapErase (integrationKey ic.name) s.integrations) k
      = alookup s.integrations k
    exact alookup_mapErase_ne _ _ _ hk

/-- Pass-1 entries only append to the event trace. -/
theorem pass1Step_events_mono (env : Env) (s : ApplyState) (ic : Config) :
    ∃ t, (pass1Step env s ic).events = s.events ++ t := by
  rcases pass1Step_spec env s ic with ⟨heq, -⟩ | ⟨-, i, -, heq⟩ | ⟨-, -, heq⟩ <;> rw [heq]
  · exact ⟨[], by simp⟩
  · exact ⟨(match alookup s.integrations (integrationKey ic.name) with
      | some p => [Event.stopProcess p.pid]
      | none => []) ++ [Event.startProcess s.nextPid], List.append_assoc _ _ _⟩
  · exact ⟨(match alookup s.integrations (integrationKey ic.name) with
      | some p => [Event.stopProcess p.pid]
      | none => []) ++ [Event.deleteConfig (integrationKey ic.name)],
      List.append_assoc _ _ _⟩

/-- Pass-1 entries never decrease the fresh-pid counter. -/
theorem pass1Step_nextPid_le (env : Env) (s : ApplyState) (ic : Config) :
    s.nextPid ≤ (pass1Step env s ic).nextPid := by
  rcases pass1Step_spec env s ic with ⟨heq, -⟩ | ⟨-, i, -, heq⟩ | ⟨-, -, heq⟩ <;> rw [heq] <;>
    simp

/-- One pass-1 entry marks the cycle failed exactly when it was already
failed or the entry's construction is reached and errors out. -/
theorem pass1Step_failed (env : Env) (s : ApplyState) (ic : Config) :
    (pass1Step env s ic).failed = (s.failed || pass1Fails env s.integrations ic) := by
  rcases pass1Step_spec env s ic with ⟨heq, p, hp, hcfg⟩ | ⟨hneed, i, hni, heq⟩
    | ⟨hneed, hni, heq⟩ <;> rw [heq]
  · simp [pass1Fails, needsConstruction, hp, hcfg]
  · simp [pass1Fails, hni]
  · simp [pass1Fails, hneed, hni]

/-- Pass-1 entries keep the registry keys duplicate-free. -/
theorem pass1Step_keys_nodup (env : Env) (s : ApplyState) (ic : Config)
    (h : (s.integrations.map Prod.fst).Nodup) :
    ((pass1Step env s ic).integrations.map Prod.fst).Nodup := by
  rcases pass1Step_spec env s ic with ⟨heq, -⟩ | ⟨-, i, -, heq⟩ | ⟨-, -, heq⟩ <;> rw [heq]
  · exact h
  · exact keys_nodup_append_fresh _ _ _ (mapErase_keys_nodup _ _ h) (alookup_mapErase_self _ _)
  · exact mapErase_keys_nodup _ _ h

/-- Pass-1 entries keep every registered pid below the fresh-pid counter. -/
theorem pass1Step_pid_bound (env : Env) (s : ApplyState) (ic : Config)
    (h : ∀ kv ∈ s.integrations, kv.2.pid < s.nextPid) :
    ∀ kv ∈ (pass1Step env s ic).integrations, kv.2.pid < (pass1Step env s ic).nextPid := by
  rcases pass1Step_spec env s ic with ⟨heq, -⟩ | ⟨-, i, -, heq⟩ | ⟨-, -, heq⟩ <;> rw [heq]
  · exact h
  · intro kv hkv
    have hkv' : kv ∈ mapErase (integrationKey ic.name) s.integrations
        ++ [(integrationKey ic.name, { pid := s.nextPid, cfg := ic, i := i })] := hkv
    rcases List.mem_append.mp hkv' with hl | hr
    · exact Nat.lt_succ_of_lt (h kv (mapErase_sub _ _ _ hl))
    · simp only [List.mem_singleton] at hr
      subst hr
      exact Nat.lt_succ_self _
  · intro kv hkv
    exact h kv (mapErase_sub _ _ _ hkv)

/-- A pass-1 entry with an existing structurally equal process is a no-op. -/
theorem pass1Step_unchanged (env : Env) (s : ApplyState) (ic : Config)
    (p : IntegrationProcess) (hp : alookup s.integrations (integrationKey ic.name) = some p)
    (hcfg : p.cfg = ic) : pass1Step env s ic = s := by
  simp [pass1Step, hp, hcfg]

/-- Registry slot of a pass-1 entry after successful (re)construction. -/
theorem pass1Step_lookup_self_new (env : Env) (s : ApplyState) (ic : Config) (i : Integration)
    (hni : env.newIntegration ic = some i) :
    alookup (pass1Step env s ic).integrations (integrationKey ic.name)
      = some { pid := s.nextPid, cfg := ic, i := i }
    ∨ (pass1Step env s ic = s
       ∧ ∃ p, alookup s.integrations (integrationKey ic.name) = some p ∧ p.cfg = ic) := by
  rcases pass1Step_spec env s ic with h | ⟨-, i', hni', heq⟩ | ⟨-, hni', -⟩
  · exact Or.inr h
  · rw [hni] at hni'
    cases hni'
    refine Or.inl ?_
    rw [heq]
    exact alookup_append_single_self _ _ _ (alookup_mapErase_self _ _)
  · rw [hni] at hni'
    cases hni'

/-- Registry slot of a pass-1 entry after construction failure. -/
theorem pass1Step_lookup_self_fail (env : Env) (s : ApplyState) (ic : Config)
    (hni : env.newIntegration ic = none) :
    alookup (pass1Step env s ic).integrations (integrationKey ic.name) = none
    ∨ (pass1Step env s ic = s
       ∧ ∃ p, alookup s.integrations (integrationKey ic.name) = some p ∧ p.cfg = ic) := by
  rcases pass1Step_spec env s ic with h | ⟨-, i', hni', -⟩ | ⟨-, -, heq⟩
  · exact Or.inr h
  · rw [hni] at hni'
    cases hni'
  · refine Or.inl ?_
    rw [heq]
    exact alookup_mapErase_self _ _

/-! ## Pass 1: fold behaviour -/

theorem pass1_fold_lookup_ne (env : Env) (ics : List Config) (s : ApplyState) (k : String)
    (h : ∀ ic ∈ ics, integrationKey ic.name ≠ k) :
    alookup ((ics.foldl (pass1Step env) s).integrations) k = alookup s.integrations k := by
  induction ics generalizing s with
  | nil => rfl
  | cons ic rest ih =>
    rw [List.foldl_cons, ih _ (fun ic' h' => h ic' (List.mem_cons_of_mem _ h'))]
    exact pass1Step_lookup_ne env s ic k (h ic (List.mem_cons_self _ _))

theorem pass1_fold_events_mono (env : Env) (ics : List Config) (s : ApplyState) :
    ∃ t, ((ics.foldl (pass1Step env) s).events) = s.events ++ t := by
  induction ics generalizing s with
  | nil => exact ⟨[], by simp⟩
  | cons ic rest ih =>
    rw [List.foldl_cons]
    obtain ⟨t₁, h₁⟩ := pass1Step_events_mono env s ic
    obtain ⟨t₂, h₂⟩ := ih (pass1Step env s ic)
    exact ⟨t₁ ++ t₂, by rw [h₂, h₁, List.append_assoc]⟩

theorem pass1_fold_nextPid_le (env : Env) (ics : List Config) (s : ApplyState) :
    s.nextPid ≤ ((ics.foldl (pass1Step env) s)).nextPid := by
  induction ics generalizing s with
  | nil => exact Nat.le_refl _
  | cons ic rest ih =>
    rw [List.foldl_cons]
    exact Nat.le_trans (pass1Step_nextPid_le env s ic) (ih _)

theorem pass1_fold_keys_nodup (env : Env) (ics : List Config) (s : ApplyState)
    (h : (s.integrations.map Prod.fst).Nodup) :
    (((ics.foldl (pass1Step env) s)).integrations.map Prod.fst).Nodup := by
  induction ics generalizing s with
  | nil => exact h
  | cons ic rest ih =>
    rw [List.foldl_cons]
    exact ih _ (pass1Step_keys_nodup env s ic h)

theorem pass1_fold_pid_bound (env : Env) (ics : List Config) (s : ApplyState)
    (h : ∀ kv ∈ s.integrations, kv.2.pid < s.nextPid) :
    ∀ kv ∈ ((ics.foldl (pass1Step env) s)).integrations,
      kv.2.pid < ((ics.foldl (pass1Step env) s)).nextPid := by
  induction ics generalizing s with
  | nil => exact h
  | cons ic rest ih =>
    rw [List.foldl_cons]
    exact ih _ (pass1Step_pid_bound env s ic h)

/-- After pass 1, the cycle is failed exactly when some entry's construction
was reached (relative to the initial registry) and errored out. -/
theorem pass1_fold_failed (env : Env) (ics : List Config) (s : ApplyState)
    (reg : List (String × IntegrationProcess))
    (hnod : (ics.map (fun ic => integrationKey ic.name)).Nodup)
    (hreg : ∀ ic ∈ ics, alookup s.integrations (integrationKey ic.name)
      = alookup reg (integrationKey ic.name)) :
    ((ics.foldl (pass1Step env) s).failed = true
      ↔ s.failed = true ∨ ∃ ic ∈ ics, pass1Fails env reg ic = true) := by
  induction ics generalizing s with
  | nil => simp
  | cons ic rest ih =>
    rw [List.foldl_cons]
    have hcongr : pass1Fails env s.integrations ic = pass1Fails env reg ic := by
      unfold pass1Fails needsConstruction
      rw [hreg ic (List.mem_cons_self _ _)]
    have hnod' : (rest.map (fun ic => integrationKey ic.name)).Nodup :=
      (List.nodup_cons.mp hnod).2
    have hkne : ∀ ic' ∈ rest, integrationKey ic'.name ≠ integrationKey ic.name := by
      intro ic' h' heq
      have hmem : integrationKey ic'.name ∈ rest.map (fun ic => integrationKey ic.name) :=
        List.mem_map_of_mem _ h'
      rw [heq] at hmem
      exact (List.nodup_cons.mp hnod).1 hmem
    have hreg' : ∀ ic' ∈ rest,
        alookup (pass1Step env s ic).integrations (integrationKey ic'.name)
          = alookup reg (integrationKey ic'.name) := by
      intro ic' h'
      rw [pass1Step_lookup_ne env s ic _ (Ne.symm (hkne ic' h'))]
      exact hreg ic' (List.mem_cons_of_mem _ h')
    rw [ih (pass1Step env s ic) hnod' hreg', pass1Step_failed, hcongr]
    constructor
    · rintro (hf | ⟨x, hx, hPx⟩)
      · rcases Bool.or_eq_true_iff.mp hf with h1 | h2
        · exact Or.inl h1
        · exact Or.inr ⟨ic, List.mem_cons_self _ _, h2⟩
      · exact Or.inr ⟨x, List.mem_cons_of_mem _ hx, hPx⟩
    · rintro (h1 | ⟨x, hx, hPx⟩)
      · exact Or.inl (Bool.or_eq_true_iff.mpr (Or.inl h1))
      · rcases List.mem_cons.mp hx with rfl | hx'
        · exact Or.inl (Bool.or_eq_true_iff.mpr (Or.inr hPx))
        · exact Or.inr ⟨x, hx', hPx⟩

/-- An entry whose config every same-keyed entry of the remaining pass-1
work list matches is preserved through pass 1: its registry slot still holds
the identical process, no stop event for its pid is ever emitted, and the
pid-uniqueness and pid-bound invariants carry over. -/
theorem pass1_fold_preserve_entry (env : Env) (ics : List Config) (s : ApplyState)
    (k : String) (p : IntegrationProcess)
    (hics : ∀ ic ∈ ics, integrationKey ic.name = k → p.cfg = ic)
    (hp : alookup s.integrations k = some p)
    (hpid : ∀ kv ∈ s.integrations, kv.2.pid = p.pid → kv.1 = k)
    (hbound : ∀ kv ∈ s.integrations, kv.2.pid < s.nextPid)
    (hstop : Event.stopProcess p.pid ∉ s.events) :
    alookup ((ics.foldl (pass1Step env) s).integrations) k = some p
    ∧ (∀ kv ∈ ((ics.foldl (pass1Step env) s)).integrations, kv.2.pid = p.pid → kv.1 = k)
    ∧ (∀ kv ∈ ((ics.foldl (pass1Step env) s)).integrations,
        kv.2.pid < ((ics.foldl (pass1Step env) s)).nextPid)
    ∧ Event.stopProcess p.pid ∉ ((ics.foldl (pass1Step env) s).events) := by
  induction ics generalizing s with
  | nil => exact ⟨hp, hpid, hbound, hstop⟩
  | cons ic rest ih =>
    rw [List.foldl_cons]
    have hppid : p.pid < s.nextPid := hbound (k, p) (alookup_some_mem hp)
    by_cases hk : integrationKey ic.name = k
    · have hcfg := hics ic (List.mem_cons_self _ _) hk
      have heq : pass1Step env s ic = s := by
        refine pass1Step_unchanged env s ic p ?_ hcfg
        rw [hk]
        exact hp
      rw [heq]
      exact ih s (fun ic' h' hkk => hics ic' (List.mem_cons_of_mem _ h') hkk) hp hpid
        hbound hstop
    · have hlook : alookup (pass1Step env s ic).integrations k = some p := by
        rw [pass1Step_lookup_ne env s ic k hk]
        exact hp
      have hbound' := pass1Step_pid_bound env s ic hbound
      have hpid' : ∀ kv ∈ (pass1Step env s ic).integrations, kv.2.pid = p.pid → kv.1 = k := by
        rcases pass1Step_spec env s ic with ⟨heq, -⟩ | ⟨-, i, -, heq⟩ | ⟨-, -, heq⟩ <;> rw [heq]
        · exact hpid
        · intro kv hkv
          have hkv' : kv ∈ mapErase (integrationKey ic.name) s.integrations
              ++ [(integrationKey ic.name, { pid := s.nextPid, cfg := ic, i := i })] := hkv
          rcases List.mem_append.mp hkv' with hl | hr
          · exact hpid kv (mapErase_sub _ _ _ hl)
          · simp only [List.mem_singleton] at hr
            subst hr
            intro hpe
            exact absurd hpe.symm (Nat.ne_of_lt hppid)

        · intro kv hkv
          exact hpid kv (mapErase_sub _ _ _ hkv)
      have hstop' : Event.stopProcess p.pid ∉ (pass1Step env s ic).events := by
        rcases pass1Step_spec env s ic with ⟨heq, -⟩ | ⟨-, i, -, heq⟩ | ⟨-, -, heq⟩ <;> rw [heq]
        · exact hstop
        · cases hq : alookup s.integrations (integrationKey ic.name) with
          | none =>
            intro hmem
            rcases List.mem_append.mp hmem with hmem1 | hmem2
            · rcases List.mem_append.mp hmem1 with hmem3 | hmem4
              · exact hstop hmem3
              · simp at hmem4
            · simp at hmem2
          | some q =>
            have hqpid : q.pid ≠ p.pid := by
              intro hqe
              exact hk (hpid (integrationKey ic.name, q) (alookup_some_mem hq) hqe)
            intro hmem
            rcases List.mem_append.mp hmem with hmem1 | hmem2
            · rcases List.mem_append.mp hmem1 with hmem3 | hmem4
              · exact hstop hmem3
              · simp only [List.mem_singleton, Event.stopProcess.injEq] at hmem4
                exact hqpid hmem4.symm
            · simp at hmem2
        · cases hq : alookup s.integrations (integrationKey ic.name) with
          | none =>
            intro hmem
            rcases List.mem_append.mp hmem with hmem1 | hmem2
            · rcases List.mem_append.mp hmem1 with hmem3 | hmem4
              · exact hstop hmem3
              · simp at hmem4
            · simp at hmem2
          | some q =>
            have hqpid : q.pid ≠ p.pid := by
              intro hqe
              exact hk (hpid (integrationKey ic.name, q) (alookup_some_mem hq) hqe)
            intro hmem
            rcases List.mem_append.mp hmem with hmem1 | hmem2
            · rcases List.mem_append.mp hmem1 with hmem3 | hmem4
              · exact hstop hmem3
              · simp only [List.mem_singleton, Event.stopProcess.injEq] at hmem4
                exact hqpid hmem4.symm
            · simp at hmem2
      exact ih (pass1Step env s ic)
        (fun ic' h' hkk => hics ic' (List.mem_cons_of_mem _ h') hkk) hlook hpid'
        hbound' hstop'

/-! ## Pass 2 (sweep) behaviour -/

theorem pass2Step_found (cfg : ManagerConfig) (acc : ApplyState)
    (kv : String × IntegrationProcess) (h : keyInConfig cfg kv.1 = true) :
    pass2Step cfg acc kv = acc := by
  simp [pass2Step, h]

theorem pass2Step_notfound (cfg : ManagerConfig) (acc : ApplyState)
    (kv : String × IntegrationProcess) (h : keyInConfig cfg kv.1 = false) :
    pass2Step cfg acc kv
      = { acc with
            events := acc.events ++ [.deleteConfig kv.1, .stopProcess kv.2.pid]
            integrations := mapErase kv.1 acc.integrations } := by
  simp [pass2Step, h]

theorem pass2_fold_events_mono (cfg : ManagerConfig)
    (l : List (String × IntegrationProcess)) (acc : ApplyState) :
    ∃ t, ((l.foldl (pass2Step cfg) acc).events) = acc.events ++ t := by
  induction l generalizing acc with
  | nil => exact ⟨[], by simp⟩
  | cons kv rest ih =>
    rw [List.foldl_cons]
    cases hkv : keyInConfig cfg kv.1 with
    | true =>
      rw [pass2Step_found cfg acc kv hkv]
      exact ih acc
    | false =>
      rw [pass2Step_notfound cfg acc kv hkv]
      obtain ⟨t₂, h₂⟩ := ih
        { acc with
            events := acc.events ++ [.deleteConfig kv.1, .stopProcess kv.2.pid]
            integrations := mapErase kv.1 acc.integrations }
      refine ⟨[.deleteConfig kv.1, .stopProcess kv.2.pid] ++ t₂, ?_⟩
      rw [h₂]
      simp [List.append_assoc]

theorem pass2_fold_failed (cfg : ManagerConfig) (l : List (String × IntegrationProcess))
    (acc : ApplyState) : ((l.foldl (pass2Step cfg) acc)).failed = acc.failed := by
  induction l generalizing acc with
  | nil => rfl
  | cons kv rest ih =>
    rw [List.foldl_cons, ih]
    cases hkv : keyInConfig cfg kv.1 with
    | true => rw [pass2Step_found cfg acc kv hkv]
    | false => rw [pass2Step_notfound cfg acc kv hkv]

theorem pass2_fold_nextPid (cfg : ManagerConfig) (l : List (String × IntegrationProcess))
    (acc : ApplyState) : ((l.foldl (pass2Step cfg) acc)).nextPid = acc.nextPid := by
  induction l generalizing acc with
  | nil => rfl
  | cons kv rest ih =>
    rw [List.foldl_cons, ih]
    cases hkv : keyInConfig cfg kv.1 with
    | true => rw [pass2Step_found cfg acc kv hkv]
    | false => rw [pass2Step_notfound cfg acc kv hkv]

theorem pass2_fold_lookup_found (cfg : ManagerConfig)
    (l : List (String × IntegrationProcess)) (acc : ApplyState) (k : String)
    (h : keyInConfig cfg k = true) :
    alookup ((l.foldl (pass2Step cfg) acc).integrations) k = alookup acc.integrations k := by
  induction l generalizing acc with
  | nil => rfl
  | cons kv rest ih =>
    rw [List.foldl_cons, ih]
    cases hkv : keyInConfig cfg kv.1 with
    | true => rw [pass2Step_found cfg acc kv hkv]
    | false =>
      rw [pass2Step_notfound cfg acc kv hkv]
      have hne : kv.1 ≠ k := by
        intro he
        rw [he, h] at hkv
        cases hkv
      exact alookup_mapErase_ne _ _ _ hne

theorem pass2_fold_lookup_none (cfg : ManagerConfig)
    (l : List (String × IntegrationProcess)) (acc : ApplyState) (k : String)
    (h : alookup acc.integrations k = none) :
    alookup ((l.foldl (pass2Step cfg) acc).integrations) k = none := by
  induction l generalizing acc with
  | nil => exact h
  | cons kv rest ih =>
    rw [List.foldl_cons]
    refine ih _ ?_
    cases hkv : keyInConfig cfg kv.1 with
    | true => rw [pass2Step_found cfg acc kv hkv]; exact h
    | false =>
      rw [pass2Step_notfound cfg acc kv hkv]
      by_cases he : kv.1 = k
      · rw [he]
        exact alookup_mapErase_self _ _
      · rw [alookup_mapErase_ne _ _ _ he]
        exact h

/-- A registered key with no matching config entry is swept: its slot ends
empty and the sweep has emitted its `DeleteConfig` call and its stop. -/
theorem pass2_fold_removes (cfg : ManagerConfig)
    (l : List (String × IntegrationProcess)) (acc : ApplyState) (k : String)
    (p : IntegrationProcess) (hnf : keyInConfig cfg k = false) (hmem : (k, p) ∈ l) :
    alookup ((l.foldl (pass2Step cfg) acc).integrations) k = none
    ∧ Event.deleteConfig k ∈ ((l.foldl (pass2Step cfg) acc).events)
    ∧ Event.stopProcess p.pid ∈ ((l.foldl (pass2Step cfg) acc).events) := by
  induction l generalizing acc with
  | nil => cases hmem
  | cons kv rest ih =>
    rw [List.foldl_cons]
    rcases List.mem_cons.mp hmem with heq | hmem'
    · have hkv : keyInConfig cfg kv.1 = false := by rw [← heq]; exact hnf
      rw [pass2Step_notfound cfg acc kv hkv]
      obtain ⟨t, ht⟩ := pass2_fold_events_mono cfg rest
        { acc with
            events := acc.events ++ [.deleteConfig kv.1, .stopProcess kv.2.pid]
            integrations := mapErase kv.1 acc.integrations }
      refine ⟨?_, ?_, ?_⟩
      · refine pass2_fold_lookup_none cfg rest _ k ?_
        show alookup (mapErase kv.1 acc.integrations) k = none
        rw [← heq]
        exact alookup_mapErase_self _ _
      · rw [ht]
        refine List.mem_append_left _ ?_
        show Event.deleteConfig k
          ∈ acc.events ++ [Event.deleteConfig kv.1, Event.stopProcess kv.2.pid]
        refine List.mem_append_right _ ?_
        rw [← heq]
        simp
      · rw [ht]
        refine List.mem_append_left _ ?_
        show Event.stopProcess p.pid
          ∈ acc.events ++ [Event.deleteConfig kv.1, Event.stopProcess kv.2.pid]
        refine List.mem_append_right _ ?_
        rw [← heq]
        simp
    · exact ih (pass2Step cfg acc kv) hmem'

/-- The sweep never stops a pid whose owner's key is still found in the new
config (such entries are skipped). -/
theorem pass2_fold_no_stop (cfg : ManagerConfig)
    (l : List (String × IntegrationProcess)) (acc : ApplyState) (q : Nat)
    (hl : ∀ kv ∈ l, kv.2.pid = q → keyInConfig cfg kv.1 = true)
    (hna : Event.stopProcess q ∉ acc.events) :
    Event.stopProcess q ∉ ((l.foldl (pass2Step cfg) acc).events) := by
  induction l generalizing acc with
  | nil => exact hna
  | cons kv rest ih =>
    rw [List.foldl_cons]
    refine ih _ (fun kv' h' => hl kv' (List.mem_cons_of_mem _ h')) ?_
    cases hkv : keyInConfig cfg kv.1 with
    | true => rw [pass2Step_found cfg acc kv hkv]; exact hna
    | false =>
      rw [pass2Step_notfound cfg acc kv hkv]
      intro hmem
      rcases List.mem_append.mp hmem with h1 | h2
      · exact hna h1
      · simp only [List.mem_cons, List.mem_singleton, List.not_mem_nil, or_false] at h2
        rcases h2 with h2 | h2
        · cases h2
        · rw [Event.stopProcess.injEq] at h2
          have := hl kv (List.mem_cons_self _ _) h2.symm
          rw [this] at hkv
          cases hkv

/-! ## Pass 3 (re-derivation) behaviour -/

theorem pass3Step_integrations (env : Env) (cfg : ManagerConfig) (acc : ApplyState)
    (kv : String × IntegrationProcess) :
    (pass3Step env cfg acc kv).integrations = acc.integrations := by
  cases hc : shouldCollect cfg kv.2 <;> simp only [pass3Step, hc] <;> split_ifs <;> rfl

theorem pass3Step_failed (env : Env) (cfg : ManagerConfig) (acc : ApplyState)
    (kv : String × IntegrationProcess) :
    (pass3Step env cfg acc kv).failed = (acc.failed || pass3Fails env cfg kv) := by
  cases hc : shouldCollect cfg kv.2
  · simp [pass3Step, pass3Fails, hc]
  · simp only [pass3Step, pass3Fails, hc]
    split_ifs with h1 h2 <;> simp_all

theorem pass3Step_events_no_stop_no_start (env : Env) (cfg : ManagerConfig)
    (acc : ApplyState) (kv : String × IntegrationProcess) :
    ∃ t, (pass3Step env cfg acc kv).events = acc.events ++ t
      ∧ (∀ q, Event.stopProcess q ∉ t) ∧ (∀ q, Event.startProcess q ∉ t) := by
  cases hc : shouldCollect cfg kv.2 <;> simp only [pass3Step, hc]
  · exact ⟨[.deleteConfig kv.1], rfl, by simp, by simp⟩
  · split_ifs with h1 h2
    · exact ⟨[.imApplyConfig (instanceConfigForIntegration env.hostname kv.2.cfg kv.2.i cfg)],
        rfl, by simp, by simp⟩
    · exact ⟨[.imApplyConfig (instanceConfigForIntegration env.hostname kv.2.cfg kv.2.i cfg)],
        rfl, by simp, by simp⟩
    · exact ⟨[], by simp, by simp, by simp⟩

theorem pass3_fold_integrations (env : Env) (cfg : ManagerConfig)
    (l : List (String × IntegrationProcess)) (acc : ApplyState) :
    ((l.foldl (pass3Step env cfg) acc)).integrations = acc.integrations := by
  induction l generalizing acc with
  | nil => rfl
  | cons kv rest ih =>
    rw [List.foldl_cons, ih, pass3Step_integrations]

theorem pass3_fold_failed (env : Env) (cfg : ManagerConfig)
    (l : List (String × IntegrationProcess)) (acc : ApplyState) :
    ((l.foldl (pass3Step env cfg) acc)).failed
      = (acc.failed || l.any (fun kv => pass3Fails env cfg kv)) := by
  induction l generalizing acc with
  | nil => simp
  | cons kv rest ih =>
    rw [List.foldl_cons, ih, pass3Step_failed, List.any_cons, Bool.or_assoc]

theorem pass3_fold_events_mono (env : Env) (cfg : ManagerConfig)
    (l : List (String × IntegrationProcess)) (acc : ApplyState) :
    ∃ t, ((l.foldl (pass3Step env cfg) acc).events) = acc.events ++ t := by
  induction l generalizing acc with
  | nil => exact ⟨[], by simp⟩
  | cons kv rest ih =>
    rw [List.foldl_cons]
    obtain ⟨t₁, h₁, -, -⟩ := pass3Step_events_no_stop_no_start env cfg acc kv
    obtain ⟨t₂, h₂⟩ := ih (pass3Step env cfg acc kv)
    exact ⟨t₁ ++ t₂, by rw [h₂, h₁, List.append_assoc]⟩

theorem pass3_fold_no_stop (env : Env) (cfg : ManagerConfig)
    (l : List (String × IntegrationProcess)) (acc : ApplyState) (q : Nat)
    (hna : Event.stopProcess q ∉ acc.events) :
    Event.stopProcess q ∉ ((l.foldl (pass3Step env cfg) acc).events) := by
  induction l generalizing acc with
  | nil => exact hna
  | cons kv rest ih =>
    rw [List.foldl_cons]
    refine ih _ ?_
    obtain ⟨t, ht, hns, -⟩ := pass3Step_events_no_stop_no_start env cfg acc kv
    rw [ht]
    intro hmem
    rcases List.mem_append.mp hmem with h1 | h2
    · exact hna h1
    · exact hns q h2

/-! ## `ApplyConfig` assembled -/

theorem applyConfig_eq_of (env : Env) (m : ManagerState) (cfg : ManagerConfig)
    (hne : ¬ m.cfg = cfg) (hrun : m.ctxDone = false) :
    applyConfig env m cfg
      = ({ cfg := cfg
           integrations :=
             (applyPass3 env cfg (applyPass2 cfg (applyPass1 env m cfg))).integrations
           ctxDone := m.ctxDone
           nextPid := (applyPass3 env cfg (applyPass2 cfg (applyPass1 env m cfg))).nextPid },
         (applyPass3 env cfg (applyPass2 cfg (applyPass1 env m cfg))).events,
         if (applyPass3 env cfg (applyPass2 cfg (applyPass1 env m cfg))).failed
         then Except.error "not all integrations were correctly updated"
         else Except.ok ()) := by
  simp only [applyConfig, if_neg hne, hrun]
  simp

theorem applyConfig_integrations_eq (env : Env) (m : ManagerState) (cfg : ManagerConfig)
    (hne : ¬ m.cfg = cfg) (hrun : m.ctxDone = false) :
    (applyConfig env m cfg).1.integrations
      = (applyPass2 cfg (applyPass1 env m cfg)).integrations := by
  rw [applyConfig_eq_of env m cfg hne hrun]
  exact pass3_fold_integrations _ _ _ _

theorem applyConfig_events_eq (env : Env) (m : ManagerState) (cfg : ManagerConfig)
    (hne : ¬ m.cfg = cfg) (hrun : m.ctxDone = false) :
    ∃ t, (applyConfig env m cfg).2.1
      = (applyPass2 cfg (applyPass1 env m cfg)).events ++ t := by
  rw [applyConfig_eq_of env m cfg hne hrun]
  exact pass3_fold_events_mono _ _ _ _

theorem keyInConfig_true_of (cfg : ManagerConfig) (ic : Config)
    (h : ic ∈ cfg.integrations) : keyInConfig cfg (integrationKey ic.name) = true := by
  simp only [keyInConfig, List.any_eq_true, decide_eq_true_eq]
  exact ⟨ic, h, rfl⟩

theorem keyInConfig_false_of (cfg : ManagerConfig) (k : String)
    (h : ∀ ic ∈ cfg.integrations, integrationKey ic.name ≠ k) :
    keyInConfig cfg k = false := by
  cases hkc : keyInConfig cfg k with
  | false => rfl
  | true =>
    rw [keyInConfig] at hkc
    obtain ⟨ic, hic, hd⟩ := List.any_eq_true.mp hkc
    exact absurd (of_decide_eq_true hd) (h ic hic)

theorem nodup_split_keys (cfg : ManagerConfig) (pre post : List Config) (ic : Config)
    (hsplit : cfg.integrations = pre ++ ic :: post)
    (hnod : (cfg.integrations.map (fun ic => integrationKey ic.name)).Nodup) :
    (∀ y ∈ pre, integrationKey y.name ≠ integrationKey ic.name)
    ∧ (∀ y ∈ post, integrationKey y.name ≠ integrationKey ic.name) := by
  rw [hsplit, List.map_append, List.map_cons] at hnod
  rw [List.nodup_append] at hnod
  obtain ⟨-, hinner, hdisj⟩ := hnod
  constructor
  · intro y hy he
    refine hdisj (a := integrationKey ic.name) ?_ ?_
    · rw [← he]
      exact List.mem_map_of_mem _ hy
    · exact List.mem_cons_self _ _
  · intro y hy he
    have := (List.nodup_cons.mp hinner).1
    rw [← he] at this
    exact this (List.mem_map_of_mem _ hy)

/-- `ApplyConfig`'s pass 1 touches the slot of `ic`'s key only when it
processes `ic` itself (keys are unique in the config). -/
theorem applyPass1_at_key (env : Env) (m : ManagerState) (cfg : ManagerConfig)
    (pre post : List Config) (ic : Config)
    (hsplit : cfg.integrations = pre ++ ic :: post)
    (hpost : ∀ y ∈ post, integrationKey y.name ≠ integrationKey ic.name)
    (hpre : ∀ y ∈ pre, integrationKey y.name ≠ integrationKey ic.name) :
    alookup (applyPass1 env m cfg).integrations (integrationKey ic.name)
      = alookup (pass1Step env
          (pre.foldl (pass1Step env)
            { integrations := m.integrations, events := [], failed := false
              nextPid := m.nextPid }) ic).integrations (integrationKey ic.name)
    ∧ alookup ((pre.foldl (pass1Step env)
          { integrations := m.integrations, events := [], failed := false
            nextPid := m.nextPid }) : ApplyState).integrations (integrationKey ic.name)
      = alookup m.integrations (integrationKey ic.name) := by
  constructor
  · rw [applyPass1, hsplit, List.foldl_append, List.foldl_cons]
    exact pass1_fold_lookup_ne env post _ _ hpost
  · exact pass1_fold_lookup_ne env pre _ _ hpre

/-! ## Claim C1 -/

/-- C1 (amended): after an `ApplyConfig` call that does work (the new
config differs from the stored one, the manager is not stopped; keys are
unique), the registry contains exactly the identity keys of the worker
entries *present* in C2 — the enabled flag is never consulted — for which
either an unchanged process was kept or worker construction succeeded; and
every key registered before the call but absent from C2 has had
`DeleteConfig` called, its process stopped, and its entry removed. -/
theorem C1_registry_exact (env : Env) (m : ManagerState) (cfg : ManagerConfig)
    (hnodc : (cfg.integrations.map (fun ic => integrationKey ic.name)).Nodup)
    (hne : ¬ m.cfg = cfg) (hrun : m.ctxDone = false) :
    (∀ k : String,
      k ∈ (applyConfig env m cfg).1.integrations.map Prod.fst
        ↔ ∃ ic ∈ cfg.integrations, integrationKey ic.name = k
            ∧ ((∃ p, alookup m.integrations k = some p ∧ p.cfg = ic)
               ∨ (env.newIntegration ic).isSome = true))
    ∧ (∀ (k : String) (p : IntegrationProcess), alookup m.integrations k = some p →
        (∀ ic ∈ cfg.integrations, integrationKey ic.name ≠ k) →
        k ∉ (applyConfig env m cfg).1.integrations.map Prod.fst
        ∧ Event.deleteConfig k ∈ (applyConfig env m cfg).2.1
        ∧ Event.stopProcess p.pid ∈ (applyConfig env m cfg).2.1) := by
  have hreg2 := applyConfig_integrations_eq env m cfg hne hrun
  constructor
  · intro k
    rw [← alookup_isSome_iff_mem_keys, hreg2]
    by_cases hex : ∃ ic ∈ cfg.integrations, integrationKey ic.name = k
    · obtain ⟨ic, hic, hkey⟩ := hex
      obtain ⟨pre, post, hsplit⟩ := List.append_of_mem hic
      obtain ⟨hpre, hpost⟩ := nodup_split_keys cfg pre post ic hsplit hnodc
      have hkc : keyInConfig cfg k = true := hkey ▸ keyInConfig_true_of cfg ic hic
      obtain ⟨h1, h2⟩ := applyPass1_at_key env m cfg pre post ic hsplit hpost hpre
      rw [applyPass2, pass2_fold_lookup_found cfg _ _ k hkc]
      subst hkey
      rw [h1]
      have huniq : ∀ ic' ∈ cfg.integrations,
          integrationKey ic'.name = integrationKey ic.name → ic' = ic := by
        intro ic' h' he
        exact List.inj_on_of_nodup_map hnodc h' hic he
      constructor
      · intro hsome
        by_cases hold : ∃ p, alookup m.integrations (integrationKey ic.name) = some p
            ∧ p.cfg = ic
        · exact ⟨ic, hic, rfl, Or.inl hold⟩
        · cases hni : env.newIntegration ic with
          | some i => exact ⟨ic, hic, rfl, Or.inr (by rw [hni]; rfl)⟩
          | none =>
            exfalso
            rcases pass1Step_lookup_self_fail env _ ic hni with hnone | ⟨heq, p, hp, hcfg⟩
            · rw [hnone] at hsome
              simp at hsome
            · rw [h2] at hp
              exact hold ⟨p, hp, hcfg⟩
      · rintro ⟨ic', hic', hkey', hcond⟩
        have : ic' = ic := huniq ic' hic' hkey'
        subst this
        rcases hcond with ⟨p, hp, hcfg⟩ | hni
        · rw [pass1Step_unchanged env _ ic' p (by rw [h2]; exact hp) hcfg, h2, hp]
          rfl
        · obtain ⟨i, hi⟩ := Option.isSome_iff_exists.mp hni
          rcases pass1Step_lookup_self_new env _ ic' i hi with hnew | ⟨heq, p, hp, hcfg⟩
          · rw [hnew]
            rfl
          · rw [heq, hp]
            rfl
    · push_neg at hex
      have hkc : keyInConfig cfg k = false := keyInConfig_false_of cfg k hex
      have h1 : alookup (applyPass1 env m cfg).integrations k = alookup m.integrations k := by
        rw [applyPass1]
        exact pass1_fold_lookup_ne env _ _ _ hex
      rw [applyPass2]
      constructor
      · intro hsome
        exfalso
        cases hm : alookup m.integrations k with
        | some p =>
          have hmem : (k, p) ∈ (applyPass1 env m cfg).integrations :=
            alookup_some_mem (by rw [h1, hm])
          have := (pass2_fold_removes cfg (applyPass1 env m cfg).integrations
            (applyPass1 env m cfg) k p hkc hmem).1
          rw [this] at hsome
          simp at hsome
        | none =>
          have := pass2_fold_lookup_none cfg (applyPass1 env m cfg).integrations _ k
            (by rw [h1, hm])
          rw [this] at hsome
          simp at hsome
      · rintro ⟨ic, hic, hkey, -⟩
        exact absurd hkey (hex ic hic)
  · intro k p hp hnone
    have hkc : keyInConfig cfg k = false := keyInConfig_false_of cfg k hnone
    have h1 : alookup (applyPass1 env m cfg).integrations k = alookup m.integrations k := by
      rw [applyPass1]
      exact pass1_fold_lookup_ne env _ _ _ hnone
    have hmem : (k, p) ∈ (applyPass1 env m cfg).integrations :=
      alookup_some_mem (by rw [h1, hp])
    obtain ⟨hrem, hdel, hstp⟩ := pass2_fold_removes cfg (applyPass1 env m cfg).integrations
      (applyPass1 env m cfg) k p hkc hmem
    obtain ⟨t, ht⟩ := applyConfig_events_eq env m cfg hne hrun
    refine ⟨?_, ?_, ?_⟩
    · rw [← alookup_isSome_iff_mem_keys, hreg2, applyPass2, hrem]
      simp
    · rw [ht]
      exact List.mem_append_left _ hdel
    · rw [ht]
      exact List.mem_append_left _ hstp

/-- C1 counterexample: the code never consults the enabled flag: a config
whose single worker entry is `fxAoff` (present but *disabled*) still ends
with that worker's key registered, where the claim requires the registry to
contain only keys of entries present *and enabled*. -/
theorem C1_counterexample :
    ((applyConfig fxEnvOk fxM0 fxCfgAoff).1.integrations.map Prod.fst
      = ["integration/A"])
    ∧ fxCfgAoff.integrations.map (fun ic => ic.common.enabled) = [false] :=
  ⟨by decide, by decide⟩

/-- C1 witness: from a registry holding `A` (pid 0) and `B` (pid 1),
applying a config containing only `A`: `A`'s key stays, `B`'s key is gone
and its `DeleteConfig` and stop were called. -/
theorem C1_registry_exact_witness :
    "integration/B" ∉ ((applyConfig fxEnvOk fxM2 fxCfgA).1.integrations.map Prod.fst)
    ∧ Event.deleteConfig "integration/B" ∈ (applyConfig fxEnvOk fxM2 fxCfgA).2.1
    ∧ Event.stopProcess 1 ∈ (applyConfig fxEnvOk fxM2 fxCfgA).2.1
    ∧ "integration/A" ∈ ((applyConfig fxEnvOk fxM2 fxCfgA).1.integrations.map Prod.fst) := by
  have H := C1_registry_exact fxEnvOk fxM2 fxCfgA (by decide) (by decide) (by decide)
  have hB := H.2 "integration/B" { pid := 1, cfg := fxB, i := fxIntegration }
    (by decide) (by decide)
  exact ⟨hB.1, hB.2.1, hB.2.2,
    (H.1 "integration/A").mpr ⟨fxA, by decide, by decide, Or.inr (by decide)⟩⟩

/-! ## Claim C2 -/

/-- C2: for an identity key `k` registered with process `p` and carried into
the new config by entry `ic`: if `ic` equals `p`'s config snapshot, the call
keeps the identical process in the registry and never emits a stop for its
pid; if `ic` differs and construction succeeds, the registry ends with a
fresh process `q` for `k` (a different reference, built from `ic`) and the
trace stops the old process strictly before starting the new one — so at no
instant do two live processes exist for `k`. -/
theorem C2_stop_before_replace (env : Env) (m : ManagerState) (cfg : ManagerConfig)
    (k : String) (ic : Config) (p : IntegrationProcess)
    (hnodc : (cfg.integrations.map (fun ic => integrationKey ic.name)).Nodup)
    (hpids : (m.integrations.map (fun kv => kv.2.pid)).Nodup)
    (hbound : ∀ kv ∈ m.integrations, kv.2.pid < m.nextPid)
    (hne : ¬ m.cfg = cfg) (hrun : m.ctxDone = false)
    (hic : ic ∈ cfg.integrations) (hkey : integrationKey ic.name = k)
    (hp : alookup m.integrations k = some p) :
    (p.cfg = ic →
      alookup ((applyConfig env m cfg).1.integrations) k = some p
      ∧ Event.stopProcess p.pid ∉ (applyConfig env m cfg).2.1)
    ∧ (∀ i, p.cfg ≠ ic → env.newIntegration ic = some i →
      ∃ q : IntegrationProcess,
        alookup ((applyConfig env m cfg).1.integrations) k = some q
        ∧ q.pid ≠ p.pid ∧ q.cfg = ic
        ∧ ∃ l₁ l₂, (applyConfig env m cfg).2.1
            = l₁ ++ [Event.stopProcess p.pid, Event.startProcess q.pid] ++ l₂) := by
  have hkc : keyInConfig cfg k = true := hkey ▸ keyInConfig_true_of cfg ic hic
  constructor
  · intro hcfg
    have hkp_mem : (k, p) ∈ m.integrations := alookup_some_mem hp
    have hpid : ∀ kv ∈ m.integrations, kv.2.pid = p.pid → kv.1 = k := by
      intro kv hkv he
      have : kv = (k, p) := List.inj_on_of_nodup_map hpids hkv hkp_mem he
      rw [this]
    have hics : ∀ ic' ∈ cfg.integrations, integrationKey ic'.name = k → p.cfg = ic' := by
      intro ic' h' he
      have : ic' = ic := List.inj_on_of_nodup_map hnodc h' hic (by rw [he, hkey])
      rw [this]
      exact hcfg
    obtain ⟨hs1look, hs1pid, hs1bound, hs1stop⟩ :=
      pass1_fold_preserve_entry env cfg.integrations
        { integrations := m.integrations, events := [], failed := false
          nextPid := m.nextPid } k p hics hp hpid hbound (by simp)
    have hs2look : alookup (applyPass2 cfg (applyPass1 env m cfg)).integrations k = some p :=
      (pass2_fold_lookup_found cfg (applyPass1 env m cfg).integrations
        (applyPass1 env m cfg) k hkc).trans hs1look
    have hs2stop : Event.stopProcess p.pid
        ∉ (applyPass2 cfg (applyPass1 env m cfg)).events := by
      refine pass2_fold_no_stop cfg (applyPass1 env m cfg).integrations
        (applyPass1 env m cfg) p.pid ?_ hs1stop
      intro kv hkv he
      have hk1 : kv.1 = k := hs1pid kv hkv he
      rw [hk1]
      exact hkc
    have h3 := pass3_fold_no_stop env cfg
      (applyPass2 cfg (applyPass1 env m cfg)).integrations
      (applyPass2 cfg (applyPass1 env m cfg)) p.pid hs2stop
    constructor
    · rw [applyConfig_integrations_eq env m cfg hne hrun]
      exact hs2look
    · rw [applyConfig_eq_of env m cfg hne hrun]
      exact h3
  · intro i hcfg hni
    have hstep : ∀ s : ApplyState, alookup s.integrations k = some p →
        ∃ q : IntegrationProcess, q.pid = s.nextPid ∧ q.cfg = ic
          ∧ alookup (pass1Step env s ic).integrations k = some q
          ∧ (pass1Step env s ic).events
              = s.events ++ [Event.stopProcess p.pid, Event.startProcess s.nextPid] := by
      intro s hps
      have hpk' : alookup s.integrations (integrationKey ic.name) = some p := by
        rw [hkey]
        exact hps
      rcases pass1Step_spec env s ic with ⟨heq, p', hp', hcfg'⟩ | ⟨hneed, i', hni', heq⟩
        | ⟨hneed, hni', heq⟩
      · exfalso
        rw [hpk'] at hp'
        injection hp' with hpp
        exact hcfg (hpp ▸ hcfg')
      · refine ⟨{ pid := s.nextPid, cfg := ic, i := i' }, rfl, rfl, ?_, ?_⟩
        · rw [heq, hkey]
          exact alookup_append_single_self _ _ _ (alookup_mapErase_self _ _)
        · rw [heq, hpk']
          simp
      · rw [hni] at hni'
        cases hni'
    obtain ⟨pre, post, hsplit⟩ := List.append_of_mem hic
    obtain ⟨hpre, hpost⟩ := nodup_split_keys cfg pre post ic hsplit hnodc
    have hlookPre : alookup ((pre.foldl (pass1Step env)
        ({ integrations := m.integrations, events := [], failed := false
           nextPid := m.nextPid } : ApplyState))).integrations k = some p := by
      rw [pass1_fold_lookup_ne env pre _ k (fun y hy => hkey ▸ hpre y hy)]
      exact hp
    have hpplt : p.pid < ((pre.foldl (pass1Step env)
        ({ integrations := m.integrations, events := [], failed := false
           nextPid := m.nextPid } : ApplyState))).nextPid :=
      pass1_fold_pid_bound env pre _ hbound (k, p) (alookup_some_mem hlookPre)
    obtain ⟨q, hqpid, hqcfg, hqlook, hqev⟩ := hstep _ hlookPre
    have hS1look : alookup (applyPass1 env m cfg).integrations k = some q := by
      show alookup ((cfg.integrations.foldl (pass1Step env)
        { integrations := m.integrations, events := [], failed := false
          nextPid := m.nextPid })).integrations k = some q
      rw [hsplit, List.foldl_append, List.foldl_cons]
      rw [pass1_fold_lookup_ne env post _ k (fun y hy => hkey ▸ hpost y hy)]
      exact hqlook
    obtain ⟨t1, ht1⟩ := pass1_fold_events_mono env post
      (pass1Step env (pre.foldl (pass1Step env)
        { integrations := m.integrations, events := [], failed := false
          nextPid := m.nextPid }) ic)
    have hS1ev : (applyPass1 env m cfg).events
        = ((pre.foldl (pass1Step env)
            ({ integrations := m.integrations, events := [], failed := false
               nextPid := m.nextPid } : ApplyState))).events
          ++ [Event.stopProcess p.pid, Event.startProcess q.pid] ++ t1 := by
      show ((cfg.integrations.foldl (pass1Step env)
        { integrations := m.integrations, events := [], failed := false
          nextPid := m.nextPid })).events = _
      rw [hsplit, List.foldl_append, List.foldl_cons, ht1, hqev, hqpid]
    obtain ⟨t2, ht2⟩ := pass2_fold_events_mono cfg (applyPass1 env m cfg).integrations
      (applyPass1 env m cfg)
    obtain ⟨t3, ht3⟩ := pass3_fold_events_mono env cfg
      (applyPass2 cfg (applyPass1 env m cfg)).integrations
      (applyPass2 cfg (applyPass1 env m cfg))
    refine ⟨q, ?_, ?_, hqcfg, ?_⟩
    · rw [applyConfig_integrations_eq env m cfg hne hrun]
      exact (pass2_fold_lookup_found cfg (applyPass1 env m cfg).integrations
        (applyPass1 env m cfg) k hkc).trans hS1look
    · intro he
      rw [hqpid] at he
      exact absurd he.symm (Nat.ne_of_lt hpplt)
    · refine ⟨((pre.foldl (pass1Step env)
        ({ integrations := m.integrations, events := [], failed := false
           nextPid := m.nextPid } : ApplyState))).events, t1 ++ (t2 ++ t3), ?_⟩
      rw [applyConfig_eq_of env m cfg hne hrun]
      show ((applyPass2 cfg (applyPass1 env m cfg)).integrations.foldl (pass3Step env cfg)
          (applyPass2 cfg (applyPass1 env m cfg))).events = _
      rw [ht3]
      rw [show (applyPass2 cfg (applyPass1 env m cfg)).events
          = (applyPass1 env m cfg).events ++ t2 from ht2]
      rw [hS1ev]
      simp [List.append_assoc]

/-- C2 witness: from a registry with `A` (pid 0, config `fxA`) and `B`
(pid 1), applying `[fxA2, fxB]`: `B` (unchanged) keeps its identical
process and is never stopped; `A` (changed) is stopped before its
replacement is started. -/
theorem C2_stop_before_replace_witness :
    (alookup ((applyConfig fxEnvOk fxM2 fxCfgA2B).1.integrations) "integration/B"
      = some { pid := 1, cfg := fxB, i := fxIntegration }
     ∧ Event.stopProcess 1 ∉ (applyConfig fxEnvOk fxM2 fxCfgA2B).2.1)
    ∧ ∃ q : IntegrationProcess,
        alookup ((applyConfig fxEnvOk fxM2 fxCfgA2B).1.integrations) "integration/A" = some q
        ∧ q.pid ≠ 0 ∧ q.cfg = fxA2
        ∧ ∃ l₁ l₂, (applyConfig fxEnvOk fxM2 fxCfgA2B).2.1
            = l₁ ++ [Event.stopProcess 0, Event.startProcess q.pid] ++ l₂ := by
  have HB := C2_stop_before_replace fxEnvOk fxM2 fxCfgA2B "integration/B" fxB
    { pid := 1, cfg := fxB, i := fxIntegration } (by decide) (by decide) (by decide)
    (by decide) (by decide) (by decide) (by decide) (by decide)
  have HA := C2_stop_before_replace fxEnvOk fxM2 fxCfgA2B "integration/A" fxA2
    { pid := 0, cfg := fxA, i := fxIntegration } (by decide) (by decide) (by decide)
    (by decide) (by decide) (by decide) (by decide) (by decide)
  exact ⟨HB.1 (by decide), HA.2 fxIntegration (by decide) (by decide)⟩

/-! ## Claim C4 -/

/-- C4 (amended): once the manager is stopped, `ApplyConfig` performs no
work — the state is untouched and no events are emitted; it fails with the
terminal error whenever the new config differs from the stored one, but a
structurally equal config is answered by the equality short-circuit (which
the code checks *before* the stopped guard) with a nil error. -/
theorem C4_post_stop (env : Env) (m : ManagerState) (cfg : ManagerConfig)
    (hstop : m.ctxDone = true) :
    (¬ m.cfg = cfg →
      applyConfig env m cfg = (m, [], .error "Manager already stopped"))
    ∧ (m.cfg = cfg → applyConfig env m cfg = (m, [], .ok ())) := by
  constructor
  · intro h
    simp [applyConfig, h, hstop]
  · intro h
    simp [applyConfig, h]

/-- C4 witness: a stopped manager rejects a differing config with the
terminal error, mutating nothing. -/
theorem C4_post_stop_witness :
    applyConfig fxEnvOk (stopManager fxM1) fxCfgAB
      = (stopManager fxM1, [], .error "Manager already stopped") :=
  (C4_post_stop fxEnvOk (stopManager fxM1) fxCfgAB rfl).1 (by decide)

/-- C4 counterexample: a call issued after `Stop` with a config structurally
equal to the stored one returns a nil error (the equality short-circuit runs
before the stopped guard), where the claim requires every post-stop call to
fail with a terminal error. -/
theorem C4_counterexample :
    (stopManager fxM1).ctxDone = true
    ∧ (applyConfig fxEnvOk (stopManager fxM1) fxCfgA).2.2 = .ok ()
    ∧ (applyConfig fxEnvOk (stopManager fxM1) fxCfgA).1 = stopManager fxM1
    ∧ (applyConfig fxEnvOk (stopManager fxM1) fxCfgA).2.1 = [] := by
  have hcfg : (stopManager fxM1).cfg = fxCfgA := by decide
  refine ⟨rfl, ?_, ?_, ?_⟩ <;> simp [applyConfig, hcfg]

/-! ## Claim C9 -/

/-- C9: an `ApplyConfig` call that does work returns either a nil error or
the aggregate error, the aggregate error exactly when some per-worker
sub-step failed (a reached construction errored, or a registered worker to
be scraped failed validation or the instance-manager push); the new config
is stored as current regardless; and the final registry does not depend on
the validator or the instance manager's answers (scrape-side failures never
affect worker liveness — best-effort convergence). -/
theorem C9_error_aggregation (env : Env) (m : ManagerState) (cfg : ManagerConfig)
    (hnodc : (cfg.integrations.map (fun ic => integrationKey ic.name)).Nodup)
    (hne : ¬ m.cfg = cfg) (hrun : m.ctxDone = false) :
    ((applyConfig env m cfg).2.2 = .ok ()
      ∨ (applyConfig env m cfg).2.2 = .error "not all integrations were correctly updated")
    ∧ ((applyConfig env m cfg).2.2 = .error "not all integrations were correctly updated"
        ↔ (∃ ic ∈ cfg.integrations, pass1Fails env m.integrations ic = true)
          ∨ ∃ kv ∈ (applyConfig env m cfg).1.integrations, pass3Fails env cfg kv = true)
    ∧ (applyConfig env m cfg).1.cfg = cfg
    ∧ ∀ (v' a' : InstanceConfig → Bool),
        (applyConfig { env with validator := v', imApply := a' } m cfg).1.integrations
          = (applyConfig env m cfg).1.integrations := by
  have hfailed : (applyPass3 env cfg (applyPass2 cfg (applyPass1 env m cfg))).failed = true
      ↔ (∃ ic ∈ cfg.integrations, pass1Fails env m.integrations ic = true)
        ∨ ∃ kv ∈ (applyPass2 cfg (applyPass1 env m cfg)).integrations,
            pass3Fails env cfg kv = true := by
    have h3 : (applyPass3 env cfg (applyPass2 cfg (applyPass1 env m cfg))).failed
        = ((applyPass2 cfg (applyPass1 env m cfg)).failed
           || (applyPass2 cfg (applyPass1 env m cfg)).integrations.any
                (fun kv => pass3Fails env cfg kv)) :=
      pass3_fold_failed env cfg _ _
    have h2 : (applyPass2 cfg (applyPass1 env m cfg)).failed
        = (applyPass1 env m cfg).failed :=
      pass2_fold_failed cfg _ _
    have h1 : ((applyPass1 env m cfg).failed = true
        ↔ ({ integrations := m.integrations, events := [], failed := false
             nextPid := m.nextPid } : ApplyState).failed = true
          ∨ ∃ ic ∈ cfg.integrations, pass1Fails env m.integrations ic = true) :=
      pass1_fold_failed env cfg.integrations
        { integrations := m.integrations, events := [], failed := false
          nextPid := m.nextPid } m.integrations hnodc (fun ic _ => rfl)
    rw [h3, h2, Bool.or_eq_true, List.any_eq_true, h1]
    simp
  have hres : (applyConfig env m cfg).2.2
      = (if (applyPass3 env cfg (applyPass2 cfg (applyPass1 env m cfg))).failed
         then Except.error "not all integrations were correctly updated"
         else Except.ok ()) := by
    rw [applyConfig_eq_of env m cfg hne hrun]
  refine ⟨?_, ?_, ?_, ?_⟩
  · rw [hres]
    cases hf : (applyPass3 env cfg (applyPass2 cfg (applyPass1 env m cfg))).failed <;>
      simp [hf]
  · rw [hres, applyConfig_integrations_eq env m cfg hne hrun, ← hfailed]
    cases hf : (applyPass3 env cfg (applyPass2 cfg (applyPass1 env m cfg))).failed <;>
      simp [hf]
  · rw [applyConfig_eq_of env m cfg hne hrun]
  · intro v' a'
    have hstep : pass1Step { env with validator := v', imApply := a' } = pass1Step env := by
      funext s ic
      rfl
    have hp1 : applyPass1 { env with validator := v', imApply := a' } m cfg
        = applyPass1 env m cfg := by
      show cfg.integrations.foldl (pass1Step { env with validator := v', imApply := a' }) _
        = cfg.integrations.foldl (pass1Step env) _
      rw [hstep]
    rw [applyConfig_integrations_eq { env with validator := v', imApply := a' } m cfg hne hrun,
      applyConfig_integrations_eq env m cfg hne hrun, hp1]

/-- C9 witness: applying `[fxA, fxB]` with an environment whose `B`
construction fails returns the aggregate error while the new config is
still stored as current. -/
theorem C9_error_aggregation_witness :
    (applyConfig fxEnvFailB fxM0 fxCfgAB).2.2
      = .error "not all integrations were correctly updated"
    ∧ (applyConfig fxEnvFailB fxM0 fxCfgAB).1.cfg = fxCfgAB := by
  have H := C9_error_aggregation fxEnvFailB fxM0 fxCfgAB (by decide) (by decide) (by decide)
  exact ⟨H.2.1.mpr (Or.inl ⟨fxB, by decide, by decide⟩), H.2.2.1⟩

/-! ## The run loop (claims C3, C5, C8, C10) -/

/-- C3: a run loop whose `Run` returns the canceled error logs and
terminates without the backoff callback; one that returns any other non-nil
error `N` times in a row and is then canceled has slept for backoff `N`
times (each sleep preceded by its backoff callback) and invoked `Run`
`N + 1` times. -/
theorem C3_run_loop_retries (mcfg : ManagerConfig) (cfg : Config) (e : String)
    (rest : List RunResult) (N : Nat) (he : e ≠ ctxCanceled) :
    processRun mcfg cfg (.ret (some ctxCanceled) :: rest) = [.invokeRun, .stoppedLog]
    ∧ (processRun mcfg cfg
        (List.replicate N (.ret (some e)) ++ [.ret (some ctxCanceled)])).count .invokeRun
        = N + 1
    ∧ (processRun mcfg cfg
        (List.replicate N (.ret (some e)) ++ [.ret (some ctxCanceled)])).count
          (.sleep mcfg.integrationRestartBackoff) = N
    ∧ (processRun mcfg cfg
        (List.replicate N (.ret (some e)) ++ [.ret (some ctxCanceled)])).count
          (.backoffLog cfg.name e) = N := by
  refine ⟨by simp [processRun], ?_, ?_, ?_⟩ <;>
  · induction N with
    | zero => simp [processRun]
    | succ n ih =>
      simp only [List.replicate_succ, List.cons_append, processRun, if_neg he,
        instanceBackoffEvents]
      simp_all [List.count_cons, List.count_append]

/-- C3 witness: two failures then cancellation, on concrete inputs. -/
theorem C3_run_loop_retries_witness :
    processRun DefaultManagerConfig fxA (.ret (some ctxCanceled) :: []) =
      [.invokeRun, .stoppedLog]
    ∧ (processRun DefaultManagerConfig fxA
        (List.replicate 2 (.ret (some "boom")) ++ [.ret (some ctxCanceled)])).count
          .invokeRun = 3
    ∧ (processRun DefaultManagerConfig fxA
        (List.replicate 2 (.ret (some "boom")) ++ [.ret (some ctxCanceled)])).count
          (.sleep DefaultManagerConfig.integrationRestartBackoff) = 2
    ∧ (processRun DefaultManagerConfig fxA
        (List.replicate 2 (.ret (some "boom")) ++ [.ret (some ctxCanceled)])).count
          (.backoffLog fxA.name "boom") = 2 :=
  C3_run_loop_retries DefaultManagerConfig fxA "boom" [] 2 (by decide)

/-- C5: a panic inside the integration's `Run` is recovered at the run
loop's deferred handler and logged; the loop terminates after that single
invocation — no backoff callback, no further `Run` invocation, and the
recovered panic never escapes the loop (the loop's trace is a value, not a
fault). -/
theorem C5_panic_contained (mcfg : ManagerConfig) (cfg : Config) (msg : String)
    (rest : List RunResult) :
    processRun mcfg cfg (.panicked msg :: rest) = [.invokeRun, .panicLog msg] := by
  simp [processRun]

/-- C8 (amended): for every non-canceled error returned by `Run` the
abnormal-exit counter labelled with the integration's name is incremented
exactly once, before the backoff sleep; a recovered panic terminates the
loop without incrementing the counter. -/
theorem C8_counter_increment (mcfg : ManagerConfig) (cfg : Config) (e msg : String)
    (rest : List RunResult) (he : e ≠ ctxCanceled) :
    processRun mcfg cfg (.ret (some e) :: rest)
      = [.invokeRun, .incCounter cfg.name, .backoffLog cfg.name e,
         .sleep mcfg.integrationRestartBackoff] ++ processRun mcfg cfg rest
    ∧ (processRun mcfg cfg (.panicked msg :: rest)).count (.incCounter cfg.name) = 0 := by
  constructor
  · simp [processRun, if_neg he, instanceBackoffEvents]
  · simp [processRun, List.count_cons]

/-- C8 witness: one concrete failing return, showing the single increment
placed before the sleep. -/
theorem C8_counter_increment_witness :
    processRun DefaultManagerConfig fxA [.ret (some "boom")]
      = [.invokeRun, .incCounter fxA.name, .backoffLog fxA.name "boom",
         .sleep DefaultManagerConfig.integrationRestartBackoff]
        ++ processRun DefaultManagerConfig fxA []
    ∧ (processRun DefaultManagerConfig fxA [.panicked "boom"]).count
        (.incCounter fxA.name) = 0 :=
  C8_counter_increment DefaultManagerConfig fxA "boom" "boom" [] (by decide)

/-- C8 counterexample: a run loop whose single `Run` invocation panics is a
non-canceled run-loop failure, yet the abnormal-exit counter for the
integration's name is incremented zero times, not once. -/
theorem C8_counterexample :
    (processRun DefaultManagerConfig fxA [.panicked "boom"]).count (.incCounter "A") = 0
    ∧ fxA.name = "A" := by
  constructor
  · simp [processRun, List.count_cons]
  · rfl

/-- C10: a `Run` invocation returning a nil error is handled by the same
branch as the canceled error: the loop logs the stop and terminates, with no
backoff callback, no restart, and no counter increment. -/
theorem C10_nil_error_stops (mcfg : ManagerConfig) (cfg : Config) (rest : List RunResult) :
    processRun mcfg cfg (.ret none :: rest) = [.invokeRun, .stoppedLog]
    ∧ processRun mcfg cfg (.ret none :: rest)
      = processRun mcfg cfg (.ret (some ctxCanceled) :: rest) := by
  constructor <;> simp [processRun]

/-! ## The handler cache (claim C6) -/

/-- C6: with `p` the live process for `key`, (1) a request that resolved to
handler `h` leaves the cache in a state where the next request resolves to
the identical handler `h` without further construction (the state is
unchanged, so the handler is built at most once per process instance); and
(2) a request arriving while the cache still holds an entry built for a
different (replaced) process reference constructs and returns the fresh
handler `st.nextHandler`, which is not the stale cached one. -/
theorem C6_handler_cache (reg : List (String × IntegrationProcess)) (st : HandlerState)
    (key : String) (p : IntegrationProcess) (h : Nat) (st' : HandlerState)
    (entry : HandlerCacheEntry)
    (hp : alookup reg key = some p)
    (hbound : ∀ kv ∈ st.cache, kv.2.handler < st.nextHandler) :
    (loadHandler reg st key = (.handler h, st') → loadHandler reg st' key = (.handler h, st'))
    ∧ (alookup st.cache key = some entry → entry.pid ≠ p.pid →
       p.i.metricsHandlerOk = true →
       loadHandler reg st key
         = (.handler st.nextHandler,
            { cache := mapInsert key { handler := st.nextHandler, pid := p.pid } st.cache
              nextHandler := st.nextHandler + 1 })
       ∧ st.nextHandler ≠ entry.handler) := by
  have hnew : p.i.metricsHandlerOk = true →
      loadHandlerNew p st key
        = (.handler st.nextHandler,
           { cache := mapInsert key { handler := st.nextHandler, pid := p.pid } st.cache
             nextHandler := st.nextHandler + 1 }) := by
    intro hok
    simp [loadHandlerNew, hok]
  have hLHN : ∀ st'' hh, loadHandlerNew p st key = (.handler hh, st'') →
      hh = st.nextHandler ∧
      st'' = { cache := mapInsert key { handler := st.nextHandler, pid := p.pid } st.cache
               nextHandler := st.nextHandler + 1 } := by
    intro st'' hh heq
    by_cases hok : p.i.metricsHandlerOk = true
    · rw [hnew hok] at heq
      simp only [Prod.mk.injEq, HandlerResult.handler.injEq] at heq
      exact ⟨heq.1.symm, heq.2.symm⟩
    · simp only [loadHandlerNew, if_neg hok] at heq
      simp at heq
  constructor
  · intro h1
    simp only [loadHandler, hp] at h1
    have hcached : alookup st'.cache key = some { handler := h, pid := p.pid } := by
      cases hc : alookup st.cache key with
      | some entry₀ =>
        simp only [hc] at h1
        by_cases hpid : entry₀.pid = p.pid
        · simp only [if_pos hpid, Prod.mk.injEq, HandlerResult.handler.injEq] at h1
          obtain ⟨hh, hst⟩ := h1
          subst hst
          rw [hc]
          cases entry₀
          simp_all
        · rw [if_neg hpid] at h1
          obtain ⟨hh, hst⟩ := hLHN _ _ h1
          subst hst hh
          simp [alookup_mapInsert_self]
      | none =>
        simp only [hc] at h1
        obtain ⟨hh, hst⟩ := hLHN _ _ h1
        subst hst hh
        simp [alookup_mapInsert_self]
    simp [loadHandler, hp, hcached]
  · intro hentry hpid hok
    constructor
    · simp only [loadHandler, hp, hentry, if_neg hpid]
      exact hnew hok
    · have hmem := alookup_some_mem hentry
      have hlt : entry.handler < st.nextHandler := hbound (key, entry) hmem
      omega

/-- C6 witness: a registry whose live process for `integration/A` is `fxP0`
and a cache holding a stale entry (handler 3, built for process identity 5):
the request constructs fresh handler 4 (≠ 3), and the following request
returns the identical handler 4 with the state untouched. -/
theorem C6_handler_cache_witness :
    (loadHandler fxReg fxHStale "integration/A"
       = (.handler 4,
          { cache := mapInsert "integration/A" { handler := 4, pid := 0 } fxHStale.cache
            nextHandler := 5 })
       ∧ (4 : Nat) ≠ 3)
    ∧ loadHandler fxReg (loadHandler fxReg fxHStale "integration/A").2 "integration/A"
       = (.handler 4, (loadHandler fxReg fxHStale "integration/A").2) := by
  have H := C6_handler_cache fxReg fxHStale "integration/A" fxP0 4
    ((loadHandler fxReg fxHStale "integration/A").2) { handler := 3, pid := 5 }
    (by decide) (by decide)
  have h2 := H.2 (by decide) (by decide) (by decide)
  exact ⟨⟨h2.1, h2.2⟩, H.1 (by decide)⟩

/-! ## The config projector (claim C7) -/

theorem goPathJoin_three (n p : String) :
    goPathJoin ["/integrations", n, p]
      = goPathClean ("/integrations/" ++ n ++ "/" ++ p) := by
  have h1 : ("/integrations" : String) ≠ "" := by decide
  have h2 : ("/integrations" : String) ++ "/" = "/integrations/" := rfl
  simp only [goPathJoin, List.all_cons, joinSlash, List.dropWhile_cons, decide_eq_true_eq,
    if_neg h1, h1, Bool.false_and, Bool.false_eq_true, if_false]
  rw [← String.append_assoc, ← String.append_assoc, h2]
  simp

/-- C7 (amended): every projected scrape config comes from a declared target
`{jobName, metricsPath}` of the integration, with job name
`integrations/<declared jobName>` (the declared target's job name under the
shared `integrations/` namespace — the worker's own name does not enter the
job name) and metrics path `path.Join("/integrations", <worker name>,
<declared path>)`; in particular, whenever the plainly joined string
`/integrations/<worker-name>/<declared-path>` is already path-clean, the
metrics path equals it exactly. -/
theorem C7_projected_scrape_config (hostname : String) (icfg : Config) (i : Integration)
    (cfg : ManagerConfig) (sc : ScrapeConfig)
    (hsc : sc ∈ (instanceConfigForIntegration hostname icfg i cfg).scrapeConfigs) :
    ∃ isc ∈ i.scrapeConfigs,
      sc.jobName = "integrations/" ++ isc.jobName
      ∧ sc.metricsPath = goPathJoin ["/integrations", icfg.name, isc.metricsPath]
      ∧ (goPathClean ("/integrations/" ++ icfg.name ++ "/" ++ isc.metricsPath)
           = "/integrations/" ++ icfg.name ++ "/" ++ isc.metricsPath →
         sc.metricsPath = "/integrations/" ++ icfg.name ++ "/" ++ isc.metricsPath) := by
  simp only [instanceConfigForIntegration, List.mem_map] at hsc
  obtain ⟨isc, hmem, hrfl⟩ := hsc
  refine ⟨isc, hmem, ?_, ?_, ?_⟩
  · rw [← hrfl]
  · rw [← hrfl]
  · intro hclean
    rw [← hrfl]
    simp only [goPathJoin_three, hclean]

/-- C7 witness: worker `A` declaring target `{B, metrics}` projects to job
name `integrations/B` and metrics path `/integrations/A/metrics`. -/
theorem C7_projected_scrape_config_witness :
    ∃ isc ∈ fxIntegration.scrapeConfigs,
      "integrations/B" = "integrations/" ++ isc.jobName
      ∧ "/integrations/A/metrics" = goPathJoin ["/integrations", fxA.name, isc.metricsPath]
      ∧ (goPathClean ("/integrations/" ++ fxA.name ++ "/" ++ isc.metricsPath)
           = "/integrations/" ++ fxA.name ++ "/" ++ isc.metricsPath →
         "/integrations/A/metrics" = "/integrations/" ++ fxA.name ++ "/" ++ isc.metricsPath) :=
  C7_projected_scrape_config "h" fxA fxIntegration fxCfgA _ (List.mem_cons_self _ _)

/-- C7 counterexample: the projected job name is built from the declared
target's job name, not from the worker's identity: worker `A` declaring job
name `B` projects to job name `integrations/B`, of which the worker's
identity key `integration/A` is not a prefix; renaming the worker to `C`
leaves the job name unchanged, so the job name is not namespaced under the
worker's identity. -/
theorem C7_counterexample :
    (instanceConfigForIntegration "h" fxA fxIntegration fxCfgA).scrapeConfigs.map
        (fun sc => sc.jobName) = ["integrations/B"]
    ∧ (instanceConfigForIntegration "h" { fxA with name := "C" } fxIntegration
         fxCfgA).scrapeConfigs.map (fun sc => sc.jobName) = ["integrations/B"]
    ∧ integrationKey fxA.name = "integration/A"
    ∧ "integration/A".toList.isPrefixOf "integrations/B".toList = false := by
  refine ⟨by decide, by decide, by decide, by decide⟩

end Integrations
